import Mathlib

set_option linter.unusedVariables false

/-!
Verification development for the srcly Scope & Symbol Resolution Engine.

The definitions below are a shallow embedding of the two analysis modules
`src/server/app/services/focus_overlay.py` (the Token Overlay pipeline) and
`src/server/app/services/data_flow_analysis.py` (the Scope Graph pipeline).
Python tree-sitter `Node` objects are embedded as `TSNode` values; Python
`dict`s are embedded as association lists with Python's replace-in-place
update semantics; the `uuid.uuid4()` calls of the data-flow analyzer are
embedded as reads from an explicit id-supply `Nat → String` so that the
dependence of the output on the randomly drawn ids is expressible.
-/

/-- A 0-based (row, column) source position, mirroring a tree-sitter point. -/
structure Pos where
  row : Nat
  col : Nat
deriving Repr, DecidableEq

/-- A concrete-syntax-tree node as consumed by both analyzers: node kind
string, source text of the node's span, the field name under which the node
sits in its parent (tree-sitter field-style children), start/end points and
the ordered child list.  `nid` models the node's object identity (`node.id`
in py-tree-sitter); the concrete trees below assign distinct `nid`s. -/
inductive TSNode : Type where
  | mk (nid : Nat) (ntype : String) (text : String) (fieldName : Option String)
      (startPos endPos : Pos) (children : List TSNode) : TSNode

def TSNode.nid : TSNode → Nat
  | .mk i _ _ _ _ _ _ => i

def TSNode.ntype : TSNode → String
  | .mk _ t _ _ _ _ _ => t

def TSNode.text : TSNode → String
  | .mk _ _ s _ _ _ _ => s

def TSNode.fieldName : TSNode → Option String
  | .mk _ _ _ f _ _ _ => f

def TSNode.startPos : TSNode → Pos
  | .mk _ _ _ _ p _ _ => p

def TSNode.endPos : TSNode → Pos
  | .mk _ _ _ _ _ q _ => q

def TSNode.children : TSNode → List TSNode
  | .mk _ _ _ _ _ _ cs => cs

/-- `node.child_by_field_name(f)`: the first child carrying field `f`. -/
def TSNode.childByField (n : TSNode) (f : String) : Option TSNode :=
  n.children.find? (fun c => c.fieldName == some f)

/-- Python object identity between two tree nodes (`a is b` / `a == b` on
py-tree-sitter nodes), embedded as equality of the `nid` identity tags. -/
def TSNode.sameAs (a b : TSNode) : Bool :=
  a.nid == b.nid

/-- Lookup in a Python `dict` embedded as an association list. -/
def lookupAssoc {α : Type} (m : List (String × α)) (k : String) : Option α :=
  (m.find? (fun p => p.1 == k)).map (fun p => p.2)

/-- `d[k] = v` on a Python `dict`: replaces in place if the key is present
(keeping its insertion position), otherwise appends at the end. -/
def setAssoc {α : Type} : List (String × α) → String → α → List (String × α)
  | [], k, v => [(k, v)]
  | (k1, v1) :: rest, k, v =>
    if k1 == k then (k, v) :: rest else (k1, v1) :: setAssoc rest k v

/-- Characters stripped by `.strip("'\"")` on import source specifiers. -/
def isQuoteChar (c : Char) : Bool :=
  c == '\'' || c == '"'

/-- Python `str.strip("'\"")`: drop leading and trailing quote characters. -/
def stripQuotes (s : String) : String :=
  String.mk (((s.toList.dropWhile isQuoteChar).reverse.dropWhile isQuoteChar).reverse)

/-- Python `pathlib.PurePath.suffix` on a file name (final path component):
the substring from the last dot on, unless that dot is the first or the last
character of the name, in which case the suffix is empty. -/
def pathSuffix (name : String) : String :=
  let rev := name.toList.reverse
  let pre := rev.takeWhile (fun c => c ≠ '.')
  match rev.drop pre.length with
  | [] => ""
  | _ :: tl =>
    if pre.isEmpty then ""
    else if tl.isEmpty then ""
    else String.mk ('.' :: pre.reverse)

/-- Python `str.lower()` (ASCII case folding suffices for the suffix sets). -/
def lowerStr (s : String) : String :=
  String.mk (s.toList.map Char.toLower)

/-- Python `str.endswith(suffix)`. -/
def strEndsWith (s suffix : String) : Bool :=
  suffix.toList.isSuffixOf s.toList

namespace FocusOverlay

/-- `_SUPPORTED_TYPESCRIPT_SUFFIXES` from `focus_overlay.py`. -/
def SUPPORTED_TYPESCRIPT_SUFFIXES : List String :=
  [".ts", ".tsx", ".mts", ".cts"]

/-- `_is_supported_typescript_file`: the focus overlay only supports
TypeScript/TSX sources; `name` is the file's final path component. -/
def is_supported_typescript_file (name : String) : Bool :=
  let suffix := lowerStr (pathSuffix name)
  if SUPPORTED_TYPESCRIPT_SUFFIXES.contains suffix then true
  else if strEndsWith (lowerStr name) ".d.ts" then true
  else false

/-- The `_BUILTINS` registry of `focus_overlay.py`, in source order. -/
def BUILTINS : List String :=
  [ "console", "Math", "JSON", "Promise", "Array", "String", "Number",
    "Boolean", "Date", "RegExp", "Set", "Map", "WeakMap", "WeakSet",
    "Error", "TypeError", "RangeError", "ReferenceError", "SyntaxError",
    "URIError", "Symbol", "BigInt", "Intl", "Proxy", "Reflect", "Atomics",
    "DataView", "ArrayBuffer", "SharedArrayBuffer", "AggregateError",
    "FinalizationRegistry", "WeakRef",
    "Int8Array", "Uint8Array", "Uint8ClampedArray", "Int16Array",
    "Uint16Array", "Int32Array", "Uint32Array", "Float32Array",
    "Float64Array", "BigInt64Array", "BigUint64Array",
    "fetch", "Request", "Response", "Headers", "URL", "URLSearchParams",
    "ReadableStream", "WritableStream", "TransformStream", "TextEncoder",
    "TextDecoder",
    "window", "document", "globalThis", "process", "Buffer", "navigator",
    "location", "history", "screen", "frames", "performance",
    "structuredClone", "queueMicrotask", "requestIdleCallback",
    "cancelIdleCallback",
    "Object", "requestAnimationFrame", "cancelAnimationFrame",
    "localStorage", "sessionStorage", "confirm", "alert", "prompt",
    "Node", "NodeFilter", "HTMLElement", "Element", "Event", "CustomEvent",
    "CSS", "IntersectionObserver", "ResizeObserver", "MutationObserver",
    "AbortController", "AbortSignal", "Crypto", "crypto", "indexedDB",
    "ShadowRoot", "DocumentFragment", "setTimeout", "clearTimeout",
    "setInterval", "clearInterval",
    "require", "module", "exports", "__dirname", "__filename",
    "undefined", "NaN", "Infinity" ]

/-- `_Def`: a registered binding of the overlay analyzer. -/
structure Def where
  name : String
  kind : String          -- "param" | "local" | "module" | "import"
  scope_id : String
  scope_type : String    -- "global" | "function" | "block" | "catch"
  def_line : Nat         -- 1-based
  def_col : Nat          -- 0-based
  import_source : Option String := none
  import_is_internal : Option Bool := none
deriving Repr, DecidableEq

/-- `_Scope`: a lexical scope of the overlay analyzer; `vars` is the scope's
symbol table (a Python dict, newest binding per name wins). -/
structure Scope where
  id : String
  type : String
  parent_id : Option String
  start_line : Nat
  end_line : Nat
  vars : List (String × Def)
deriving Repr, DecidableEq

/-- `_Usage`: a non-declaration occurrence of a name. -/
structure Usage where
  name : String
  line : Nat       -- 1-based
  start_col : Nat  -- 0-based
  end_col : Nat    -- exclusive
  resolved : Option Def
deriving Repr, DecidableEq

/-- `OverlayToken` (the pydantic model is constructed field-by-field in
`compute_focus_overlay`; the field set is exactly the constructor call). -/
structure OverlayToken where
  fileLine : Nat
  startCol : Nat
  endCol : Nat
  category : String
  symbolId : String
  tooltip : String
deriving Repr, DecidableEq

/-- `_is_function_node`. -/
def is_function_node (n : TSNode) : Bool :=
  [ "function_declaration", "function_expression", "arrow_function",
    "method_definition", "generator_function",
    "generator_function_declaration" ].contains n.ntype

/-- `_is_catch_clause`. -/
def is_catch_clause (n : TSNode) : Bool :=
  n.ntype == "catch_clause"

/-- `_is_scope_boundary`; the Python code reads `n.parent`, which the
embedding passes explicitly (the traversal's enclosing node, if any).
Block-shaped nodes that are the body of a function or catch clause do not
open an additional block scope. -/
def is_scope_boundary (parent : Option TSNode) (n : TSNode) : Bool :=
  if n.ntype == "block" || n.ntype == "statement_block" then
    match parent with
    | some p => if is_function_node p || is_catch_clause p then false else true
    | none => true
  else if is_catch_clause n then true
  else is_function_node n

/-- `_scope_type`. -/
def scope_type_of (n : TSNode) : String :=
  if is_function_node n then "function"
  else if is_catch_clause n then "catch"
  else if n.ntype == "block" || n.ntype == "statement_block" then "block"
  else "block"

/-- Node kinds inside which `_collect_pattern_identifiers` never collects. -/
def PATTERN_SKIP_KINDS : List String :=
  [ "member_expression", "call_expression", "property_identifier",
    "jsx_opening_element", "jsx_closing_element", "jsx_self_closing_element" ]

/-- `_collect_pattern_identifiers`: walk a destructuring pattern and collect
exactly the identifier nodes in binding positions (for `pair_pattern`s only
the value side; never the property-name side).  The recursion is structural
on an explicit fuel so that concrete runs reduce inside the kernel; every
recursive step passes a strictly `sizeOf`-smaller node, so fuel `sizeOf x`
(used by the wrapper below) never exhausts; callers thread the enclosing traversal's fuel). -/
def collect_pattern_identifiers_fuel : Nat → TSNode → List TSNode
  | 0, _ => []  -- fuel exhausted: unreachable for fuel ≥ sizeOf x
  | fuel + 1, x =>
    if x.ntype == "identifier" || x.ntype == "shorthand_property_identifier" then
      [x]
    else if x.ntype == "shorthand_property_identifier_pattern" then
      [x]
    else if x.ntype == "pair_pattern" then
      match x.childByField "value" with
      | some value => collect_pattern_identifiers_fuel fuel value
      | none =>
        x.children.foldl (fun acc c => acc ++ collect_pattern_identifiers_fuel fuel c) []
    else if PATTERN_SKIP_KINDS.contains x.ntype then
      []
    else
      x.children.foldl (fun acc c => acc ++ collect_pattern_identifiers_fuel fuel c) []

/-- Phase-1 analysis state of `compute_focus_overlay`: the created scopes in
creation order (`scopes.values()` enumerates a Python dict in insertion
order), the monotonic `scope_counter`, and `scope_boundary_map`
(node identity → scope id). -/
structure P1State where
  scopes : List Scope
  counter : Nat
  boundary : List (Nat × String)
deriving Repr

/-- `scopes[sid]` on the scope dict (scope ids are created distinct). -/
def findScope (scopes : List Scope) (sid : String) : Option Scope :=
  scopes.find? (fun s => s.id == sid)

/-- `new_scope`: bump the counter, derive the deterministic scope id from
the scope type, the 1-based line span and the counter, and register the
scope. -/
def new_scope (file_total_lines : Nat) (stype : String) (node : Option TSNode)
    (parent_id : Option String) (st : P1State) : Scope × P1State :=
  let counter := st.counter + 1
  let startLine := match node with
    | none => 1
    | some n => n.startPos.row + 1
  let endLine := match node with
    | none => file_total_lines
    | some n => n.endPos.row + 1
  let sid := stype ++ ":" ++ toString startLine ++ ":" ++ toString endLine
      ++ ":" ++ toString counter
  let scope : Scope :=
    { id := sid, type := stype, parent_id := parent_id,
      start_line := startLine, end_line := endLine, vars := [] }
  (scope, { scopes := st.scopes ++ [scope], counter := counter,
            boundary := st.boundary })

/-- `_add_def`: build a `_Def` from the name node's text and position and
store it in the owning scope's symbol table (`scope.vars[name] = d`;
replacing any earlier binding with that name). -/
def add_def (st : P1State) (name_node : TSNode) (kind scope_id scope_type : String)
    (import_source : Option String) (import_is_internal : Option Bool) : P1State :=
  let name := name_node.text
  if name == "" then st
  else
    let d : Def :=
      { name := name, kind := kind, scope_id := scope_id,
        scope_type := scope_type,
        def_line := name_node.startPos.row + 1,
        def_col := name_node.startPos.col,
        import_source := import_source,
        import_is_internal := import_is_internal }
    { st with
      scopes := st.scopes.map (fun s =>
        if s.id == scope_id then { s with vars := setAssoc s.vars name d } else s) }

/-- The loop of `_resolve`, with explicit fuel (the Python `while` terminates
because builder-produced parent links are acyclic; the fuel below is always
sufficient for them). -/
def resolve_fuel (scopes : List Scope) (name : String) : Nat → Scope → Option Def
  | 0, _ => none
  | fuel + 1, cur =>
    match lookupAssoc cur.vars name with
    | some d => some d
    | none =>
      match cur.parent_id with
      | some pid =>
        match findScope scopes pid with
        | some p => resolve_fuel scopes name fuel p
        | none => none
      | none => none

/-- `_resolve(name, start_scope)`: walk the scope chain from the starting
scope through successive parents; first symbol-table hit wins. -/
def resolve (scopes : List Scope) (name : String) (start_scope : Scope) : Option Def :=
  resolve_fuel scopes name (scopes.length + 1) start_scope

/-- The scope chain walked by `_resolve`/`_ancestor_chain`: the scope itself
followed by its successive parents (same fuel discipline as `resolve_fuel`). -/
def scope_chain_fuel (scopes : List Scope) : Nat → Scope → List Scope
  | 0, _ => []
  | fuel + 1, s =>
    s :: (match s.parent_id with
          | none => []
          | some pid =>
            match findScope scopes pid with
            | some p => scope_chain_fuel scopes fuel p
            | none => [])

/-- `_ancestor_chain(scope_id)`: ids of the scope and its ancestors. -/
def ancestor_chain_fuel (scopes : List Scope) : Nat → Option Scope → List String
  | 0, _ => []
  | _ + 1, none => []
  | fuel + 1, some s =>
    s.id :: (match s.parent_id with
             | none => []
             | some pid => ancestor_chain_fuel scopes fuel (findScope scopes pid))

def ancestor_chain (scopes : List Scope) (sid : String) : List String :=
  ancestor_chain_fuel scopes (scopes.length + 1) (findScope scopes sid)

/-- The `import_statement` branch of `phase1_traverse`.  The filesystem and
tsconfig work of `_classify_import_source` is the external Module Resolver
collaborator; it enters the embedding as the `resolver` function from import
specifier to `(is_internal, resolved_path)`. -/
def handle_import_statement (resolver : String → Bool × Option String)
    (global_id : String) (n : TSNode) (st : P1State) : P1State :=
  let is_type_import := n.children.any (fun c => c.ntype == "type" && c.text == "type")
  if is_type_import then st
  else
    let import_source := match n.childByField "source" with
      | some source_node => stripQuotes source_node.text
      | none => ""
    let is_internal := (resolver import_source).fst
    let clause := match n.childByField "clause" with
      | some c => some c
      | none => n.children.find? (fun c => c.ntype == "import_clause")
    match clause with
    | none => st
    | some clause =>
      -- Default import: import Foo from "x"
      let st := clause.children.foldl (fun st child =>
        if child.ntype == "identifier" then
          add_def st child "import" global_id "global" (some import_source) (some is_internal)
        else st) st
      -- Namespace import: import * as ns from "x"
      let st := clause.children.foldl (fun st child =>
        if child.ntype == "namespace_import" then
          let name_node := match child.childByField "name" with
            | some nn => some nn
            | none => child.children.find? (fun c => c.ntype == "identifier")
          match name_node with
          | some nn =>
            add_def st nn "import" global_id "global" (some import_source) (some is_internal)
          | none => st
        else st) st
      -- Named imports: import [ A, B as C, type T ] from "x"
      let named_imports := match clause.childByField "named_imports" with
        | some ni => some ni
        | none => clause.children.find? (fun c => c.ntype == "named_imports")
      match named_imports with
      | none => st
      | some named_imports =>
        named_imports.children.foldl (fun st spec =>
          if spec.ntype != "import_specifier" then st
          else if spec.children.any (fun c => c.ntype == "type" && c.text == "type") then st
          else
            let alias_node := spec.childByField "alias"
            let name_node := spec.childByField "name"
            match (match alias_node with | some a => some a | none => name_node) with
            | some localName =>
              add_def st localName "import" global_id "global" (some import_source) (some is_internal)
            | none => st) st

/-- Kinds of declaration-form loop headers / variable statements scanned for
in `for_in_statement` and the phase-2 skip logic. -/
def DECL_KEYWORDS : List String := ["const", "let", "var"]

/-- The definition-recognition part of `phase1_traverse` for one node (the
`elif` chain after scope creation).  `cur` is the scope that was current
when the node was entered, `next` the scope after boundary handling (they
differ exactly when the node opened a scope). -/
def phase1_defs (resolver : String → Bool × Option String) (global_id : String)
    (fuel : Nat) (n : TSNode) (parent : Option TSNode)
    (cur_id cur_type next_id next_type : String) (st : P1State) : P1State :=
  if n.ntype == "import_statement" then
    handle_import_statement resolver global_id n st
  else if n.ntype == "variable_declarator" then
    match n.childByField "name" with
    | some name_node =>
      if name_node.ntype == "identifier" then
        add_def st name_node "local" next_id next_type none none
      else
        (collect_pattern_identifiers_fuel fuel name_node).foldl
          (fun st ident => add_def st ident "local" next_id next_type none none) st
    | none => st
  else if ["required_parameter", "optional_parameter", "rest_parameter"].contains n.ntype then
    (collect_pattern_identifiers_fuel fuel n).foldl
      (fun st ident => add_def st ident "param" next_id next_type none none) st
  else if n.ntype == "identifier"
      && (match parent with
          | some p => p.ntype == "arrow_function"
          | none => false) then
    -- Arrow functions like `tile => ...`: the parameter is a direct
    -- identifier child of the arrow_function node.
    add_def st n "param" next_id next_type none none
  else if n.ntype == "catch_clause" then
    match n.childByField "parameter" with
    | some param =>
      if param.ntype == "identifier" then
        add_def st param "param" next_id "catch" none none
      else
        (collect_pattern_identifiers_fuel fuel param).foldl
          (fun st ident => add_def st ident "param" next_id "catch" none none) st
    | none => st
  else if n.ntype == "function_declaration" then
    match n.childByField "name" with
    | some name_node =>
      -- The function name is defined in the enclosing scope.
      add_def st name_node (if cur_type != "global" then "local" else "module")
        cur_id cur_type none none
    | none => st
  else if n.ntype == "class_declaration" then
    match n.childByField "name" with
    | some name_node =>
      add_def st name_node (if cur_type != "global" then "local" else "module")
        cur_id cur_type none none
    | none => st
  else if n.ntype == "for_in_statement" then
    let is_decl := n.children.any (fun c => DECL_KEYWORDS.contains c.ntype)
    if is_decl then
      match n.childByField "left" with
      | some left =>
        if left.ntype == "identifier" then
          add_def st left "local" next_id next_type none none
        else
          (collect_pattern_identifiers_fuel fuel left).foldl
            (fun st ident => add_def st ident "local" next_id next_type none none) st
      | none => st
    else st
  else st

/-- `phase1_traverse`: open scopes at boundaries, record definitions, then
recurse into the children within the (possibly new) scope (`for c in
n.children: phase1_traverse(c, next_scope)` becomes a state fold).  Fuel is
structural (see `collect_pattern_identifiers_fuel`); fuel `sizeOf n` never
exhausts. -/
def phase1_traverse (resolver : String → Bool × Option String)
    (file_total_lines root_nid : Nat) (global_id : String) :
    Nat → TSNode → Option TSNode → String → String → P1State → P1State
  | 0, _, _, _, _, st => st  -- fuel exhausted: unreachable for fuel ≥ sizeOf n
  | fuel + 1, n, parent, cur_id, cur_type, st =>
    let step :=
      if is_scope_boundary parent n && !(n.nid == root_nid) then
        let (sc, st2) := new_scope file_total_lines (scope_type_of n) (some n) (some cur_id) st
        (sc.id, sc.type, { st2 with boundary := st2.boundary ++ [(n.nid, sc.id)] })
      else (cur_id, cur_type, st)
    let next_id := step.1
    let next_type := step.2.1
    let st1 := step.2.2
    let st2 := phase1_defs resolver global_id fuel n parent cur_id cur_type next_id next_type st1
    n.children.foldl
      (fun st c =>
        phase1_traverse resolver file_total_lines root_nid global_id fuel c (some n)
          next_id next_type st)
      st2

/-- Node kinds treated as candidate usages by `phase2_traverse` (note: the
constant literal kinds are part of this set in the source). -/
def USAGE_NODE_KINDS : List String :=
  ["identifier", "undefined", "null", "true", "false"]

/-- Kinds at which the phase-2 definition-context walk stops. -/
def PHASE2_BOUNDARY_KINDS : List String :=
  [ "program", "statement_block", "function_declaration",
    "function_expression", "arrow_function", "method_definition",
    "class_declaration" ]

/-- `parent.child_by_field_name(f) == n` (comparison with `None` is false). -/
def matchesField (p : TSNode) (f : String) (n : TSNode) : Bool :=
  match p.childByField f with
  | some m => m.sameAs n
  | none => false

/-- The inner `check` walk of phase 2: the nodes visited when walking from
`n` up to (but excluding) the ancestor `p`; `ancestors` lists all ancestors
of `n`, nearest first. -/
def path_up_to (n : TSNode) (ancestors : List TSNode) (p : TSNode) : List TSNode :=
  n :: ancestors.takeWhile (fun a => !(a.sameAs p))

/-- The `is_definition_part` walk of `phase2_traverse`: climb the ancestors
of `n`; inside the name side of a `variable_declarator`, inside a parameter
node, or inside a catch-clause parameter the identifier is a definition, and
the walk stops at statement/function boundaries. -/
def is_definition_part (n : TSNode) (fullAnc : List TSNode) : List TSNode → Bool
  | [] => false
  | p :: rest =>
    if p.ntype == "variable_declarator" then
      match p.childByField "name" with
      | some name_node =>
        if (path_up_to n fullAnc p).any (fun c => c.sameAs name_node) then true
        else is_definition_part n fullAnc rest
      | none => is_definition_part n fullAnc rest
    else if ["required_parameter", "optional_parameter", "rest_parameter"].contains p.ntype then
      true
    else if p.ntype == "catch_clause" then
      match p.childByField "parameter" with
      | some param =>
        if (path_up_to n fullAnc p).any (fun c => c.sameAs param) then true
        else is_definition_part n fullAnc rest
      | none => is_definition_part n fullAnc rest
    else if PHASE2_BOUNDARY_KINDS.contains p.ntype then
      false
    else
      is_definition_part n fullAnc rest

/-- The skip chain of `phase2_traverse` deciding whether a candidate node is
recorded as a usage (true = record). -/
def phase2_candidate (n : TSNode) (ancestors : List TSNode) : Bool :=
  match ancestors with
  | [] => false  -- `parent is None`: nothing is recorded
  | parent :: _ =>
    if parent.ntype == "variable_declarator" && matchesField parent "name" n then false
    else if parent.ntype == "function_declaration" && matchesField parent "name" n then false
    else if parent.ntype == "class_declaration" && matchesField parent "name" n then false
    else if ["required_parameter", "optional_parameter", "rest_parameter"].contains parent.ntype then false
    else if parent.ntype == "catch_clause" && matchesField parent "parameter" n then false
    else if parent.ntype == "for_in_statement" && matchesField parent "left" n
        && parent.children.any (fun c => DECL_KEYWORDS.contains c.ntype) then false
    else if parent.ntype == "property_identifier" then false
    else if ["jsx_opening_element", "jsx_closing_element", "jsx_self_closing_element"].contains parent.ntype then false
    else !(is_definition_part n ancestors ancestors)

/-- `phase2_traverse`: record usages (with their resolution against the
finished scope tree) in document order.  Fuel is structural; fuel
`sizeOf n` never exhausts. -/
def phase2_traverse (scopes : List Scope) (boundary : List (Nat × String)) :
    Nat → TSNode → List TSNode → Scope → List Usage → List Usage
  | 0, _, _, _, usages => usages  -- fuel exhausted: unreachable
  | fuel + 1, n, ancestors, cur, usages =>
    let next := match boundary.find? (fun p => p.1 == n.nid) with
      | some pr => (findScope scopes pr.2).getD cur
      | none => cur
    let usages1 :=
      if USAGE_NODE_KINDS.contains n.ntype && phase2_candidate n ancestors then
        let name := n.text
        if name == "" then usages
        else
          usages ++ [{ name := name, line := n.startPos.row + 1,
                       start_col := n.startPos.col, end_col := n.endPos.col,
                       resolved := resolve scopes name next }]
      else usages
    n.children.foldl
      (fun us c => phase2_traverse scopes boundary fuel c (n :: ancestors) next us)
      usages1

/-- Python tuple `<` on the `(span, start_line)` sort key. -/
def pair_lt (a b : Int × Int) : Bool :=
  a.1 < b.1 || (a.1 == b.1 && a.2 < b.2)

/-- The sort key of `smallest_containing_function_scope`:
`(s.end_line - s.start_line, s.start_line)`. -/
def span_key (s : Scope) : Int × Int :=
  ((s.end_line : Int) - (s.start_line : Int), (s.start_line : Int))

/-- Python `min(candidates, key=...)`: first element with strictly smallest
key wins (iteration keeps the earlier element on key ties). -/
def min_by_key (key : Scope → Int × Int) : Scope → List Scope → Scope
  | best, [] => best
  | best, s :: rest =>
    if pair_lt (key s) (key best) then min_by_key key s rest
    else min_by_key key best rest

/-- The candidate list of `smallest_containing_function_scope`: function
scopes whose span fully contains the focus line range, in creation order. -/
def function_scope_candidates (scopes : List Scope) (focus_s focus_e : Int) : List Scope :=
  scopes.filter (fun s =>
    s.type == "function" && (s.start_line : Int) ≤ focus_s && focus_e ≤ (s.end_line : Int))

/-- `smallest_containing_function_scope`: global when no function scope
contains the focus range, otherwise the candidate minimizing
`(span, start_line)`. -/
def smallest_containing_function_scope (scopes : List Scope) (global_scope : Scope)
    (focus_s focus_e : Int) : Scope :=
  match function_scope_candidates scopes focus_s focus_e with
  | [] => global_scope
  | c :: cs => min_by_key span_key c cs

/-- The body of the token-building loop of `compute_focus_overlay` for one
usage: slice/focus line filters, empty-span filter, then category, symbol id
and tooltip assignment. -/
def token_for_usage (file_path : String) (scopes : List Scope)
    (global_scope focus_fn_scope : Scope) (focus_fn_chain : List String)
    (slice_s slice_e focus_s focus_e : Int) (u : Usage) : Option OverlayToken :=
  if (u.line : Int) < slice_s || (u.line : Int) > slice_e then none
  else if (u.line : Int) < focus_s || (u.line : Int) > focus_e then none
  else if u.end_col ≤ u.start_col then none
  else
    let name := u.name
    match u.resolved with
    | none =>
      if BUILTINS.contains name then
        some { fileLine := u.line, startCol := u.start_col, endCol := u.end_col,
               category := "builtin", symbolId := "builtin:" ++ name,
               tooltip := "Builtin/global" }
      else
        some { fileLine := u.line, startCol := u.start_col, endCol := u.end_col,
               category := "unresolved", symbolId := "unresolved:" ++ name,
               tooltip := "Unresolved identifier" }
    | some d =>
      if d.kind == "import" then
        let symbol_id := "imp:" ++ file_path ++ ":" ++ d.import_source.getD "" ++ ":" ++ d.name
        let sourceText := match d.import_source with
          | some s => s
          | none => "None"
        if d.import_is_internal == some true then
          some { fileLine := u.line, startCol := u.start_col, endCol := u.end_col,
                 category := "importInternal", symbolId := symbol_id,
                 tooltip := "Import (internal): " ++ sourceText }
        else
          some { fileLine := u.line, startCol := u.start_col, endCol := u.end_col,
                 category := "importExternal", symbolId := symbol_id,
                 tooltip := "Import (external): " ++ sourceText }
      else
        -- Deterministic symbol id from the definition location.
        let symbol_id := "def:" ++ file_path ++ ":" ++ toString d.def_line ++ ":"
            ++ toString d.def_col ++ ":" ++ d.name
        if d.kind == "param" then
          -- Parameters classify as parameters independently of the focus scope.
          some { fileLine := u.line, startCol := u.start_col, endCol := u.end_col,
                 category := "param", symbolId := symbol_id, tooltip := "Parameter" }
        else
          match findScope scopes d.scope_id with
          | none =>
            some { fileLine := u.line, startCol := u.start_col, endCol := u.end_col,
                   category := "local", symbolId := symbol_id,
                   tooltip := "Declaration (line " ++ toString d.def_line ++ ")" }
          | some def_scope =>
            if def_scope.type == "global" || def_scope.parent_id == none then
              some { fileLine := u.line, startCol := u.start_col, endCol := u.end_col,
                     category := "module", symbolId := symbol_id,
                     tooltip := "Module scope (line " ++ toString d.def_line ++ ")" }
            else
              let def_chain := ancestor_chain scopes def_scope.id
              if def_chain.contains focus_fn_scope.id then
                some { fileLine := u.line, startCol := u.start_col, endCol := u.end_col,
                       category := "local", symbolId := symbol_id,
                       tooltip := "Local declaration (line " ++ toString d.def_line ++ ")" }
              else if focus_fn_chain.contains def_scope.id
                  && !(def_scope.id == global_scope.id) then
                some { fileLine := u.line, startCol := u.start_col, endCol := u.end_col,
                       category := "capture", symbolId := symbol_id,
                       tooltip := "Captured from outer scope (line " ++ toString d.def_line ++ ")" }
              else
                some { fileLine := u.line, startCol := u.start_col, endCol := u.end_col,
                       category := "local", symbolId := symbol_id,
                       tooltip := "Local declaration (line " ++ toString d.def_line ++ ")" }

/-- The token-building pass over all recorded usages. -/
def build_tokens (file_path : String) (scopes : List Scope) (global_scope : Scope)
    (usages : List Usage) (slice_s slice_e focus_s focus_e : Int) : List OverlayToken :=
  let focus_fn_scope := smallest_containing_function_scope scopes global_scope focus_s focus_e
  let focus_fn_chain := ancestor_chain scopes focus_fn_scope.id
  usages.filterMap
    (token_for_usage file_path scopes global_scope focus_fn_scope focus_fn_chain
      slice_s slice_e focus_s focus_e)

/-- The range normalization of `compute_focus_overlay`: raise each start to
at least 1 and each end to at least its start, then cap all four bounds at
the file's last line. -/
def clamp_ranges (slice_s slice_e focus_s focus_e : Int) (file_total_lines : Nat) :
    Int × Int × Int × Int :=
  let ss := max 1 slice_s
  let se := max ss slice_e
  let fs := max 1 focus_s
  let fe := max fs focus_e
  let fs2 := min fs (file_total_lines : Int)
  let fe2 := min fe (file_total_lines : Int)
  let ss2 := min ss (file_total_lines : Int)
  let se2 := min se (file_total_lines : Int)
  (ss2, se2, fs2, fe2)

/-- Phases 1 and 2 of `compute_focus_overlay` on a parsed tree: the final
scope table, the (vars-populated) global scope and the recorded usages.
`fuel` is the structural recursion bound: any value at least the node count
of the tree is sufficient (the Python recursions need no bound). -/
def run_phases (resolver : String → Bool × Option String) (fuel : Nat) (tree : TSNode) :
    List Scope × Scope × List Usage :=
  let file_total_lines := tree.endPos.row + 1
  let st0 : P1State := { scopes := [], counter := 0, boundary := [] }
  let gpair := new_scope file_total_lines "global" (some tree) none st0
  let g0 := gpair.1
  let st1 := gpair.2
  let st2 := phase1_traverse resolver file_total_lines tree.nid g0.id fuel
    tree none g0.id g0.type st1
  let global_scope := (findScope st2.scopes g0.id).getD g0
  let usages := phase2_traverse st2.scopes st2.boundary fuel tree [] global_scope []
  (st2.scopes, global_scope, usages)

/-- `compute_focus_overlay` on a supported, parsed file: normalize the
ranges, run both phases, build the token list. -/
def compute_focus_overlay (resolver : String → Bool × Option String) (fuel : Nat)
    (file_path : String) (tree : TSNode)
    (slice_s slice_e focus_s focus_e : Int) : List OverlayToken :=
  let L := tree.endPos.row + 1
  let r := clamp_ranges slice_s slice_e focus_s focus_e L
  let phases := run_phases resolver fuel tree
  build_tokens file_path phases.1 phases.2.1 phases.2.2 r.1 r.2.1 r.2.2.1 r.2.2.2

/-- The entry gate of `compute_focus_overlay`: a missing path raises 404; an
existing file of an unsupported kind returns an empty token list without
running the analysis; `file_name` is the path's final component. -/
def compute_focus_overlay_entry (resolver : String → Bool × Option String) (fuel : Nat)
    (path_exists path_is_file : Bool) (file_name file_path : String) (tree : TSNode)
    (slice_s slice_e focus_s focus_e : Int) : Except Nat (List OverlayToken) :=
  if !path_exists || !path_is_file then Except.error 404
  else if !is_supported_typescript_file file_name then Except.ok []
  else Except.ok (compute_focus_overlay resolver fuel file_path tree slice_s slice_e focus_s focus_e)

end FocusOverlay

namespace Trees

/-- CST of the one-line TypeScript file `const flag = true;` as produced by
tree-sitter-typescript (keyword and punctuation children included). -/
def constTrue : TSNode :=
  .mk 0 "program" "const flag = true;" none ⟨0, 0⟩ ⟨0, 18⟩
    [ .mk 1 "lexical_declaration" "const flag = true;" none ⟨0, 0⟩ ⟨0, 18⟩
        [ .mk 2 "const" "const" none ⟨0, 0⟩ ⟨0, 5⟩ []
        , .mk 3 "variable_declarator" "flag = true" none ⟨0, 6⟩ ⟨0, 17⟩
            [ .mk 4 "identifier" "flag" (some "name") ⟨0, 6⟩ ⟨0, 10⟩ []
            , .mk 5 "=" "=" none ⟨0, 11⟩ ⟨0, 12⟩ []
            , .mk 6 "true" "true" (some "value") ⟨0, 13⟩ ⟨0, 17⟩ [] ]
        , .mk 7 ";" ";" none ⟨0, 17⟩ ⟨0, 18⟩ [] ] ]

/-- A Module Resolver collaborator that resolves nothing (no file in these
examples imports anything, so it is never consulted). -/
def nullResolver : String → Bool × Option String :=
  fun _ => (false, none)

/-- CST of the spec's shadowing example

```
{
  let x = 1;
  {
    let x = 2;
    use(x);
  }
}
```

(a top-level braced statement parses as a `statement_block`). -/
def shadowing : TSNode :=
  .mk 0 "program" "" none ⟨0, 0⟩ ⟨6, 1⟩
    [ .mk 1 "statement_block" "" none ⟨0, 0⟩ ⟨6, 1⟩
        [ .mk 2 "\x7b" "\x7b" none ⟨0, 0⟩ ⟨0, 1⟩ []
        , .mk 3 "lexical_declaration" "let x = 1;" none ⟨1, 2⟩ ⟨1, 12⟩
            [ .mk 4 "let" "let" none ⟨1, 2⟩ ⟨1, 5⟩ []
            , .mk 5 "variable_declarator" "x = 1" none ⟨1, 6⟩ ⟨1, 11⟩
                [ .mk 6 "identifier" "x" (some "name") ⟨1, 6⟩ ⟨1, 7⟩ []
                , .mk 7 "=" "=" none ⟨1, 8⟩ ⟨1, 9⟩ []
                , .mk 8 "number" "1" (some "value") ⟨1, 10⟩ ⟨1, 11⟩ [] ]
            , .mk 9 ";" ";" none ⟨1, 11⟩ ⟨1, 12⟩ [] ]
        , .mk 10 "statement_block" "" none ⟨2, 2⟩ ⟨5, 3⟩
            [ .mk 11 "\x7b" "\x7b" none ⟨2, 2⟩ ⟨2, 3⟩ []
            , .mk 12 "lexical_declaration" "let x = 2;" none ⟨3, 4⟩ ⟨3, 14⟩
                [ .mk 13 "let" "let" none ⟨3, 4⟩ ⟨3, 7⟩ []
                , .mk 14 "variable_declarator" "x = 2" none ⟨3, 8⟩ ⟨3, 13⟩
                    [ .mk 15 "identifier" "x" (some "name") ⟨3, 8⟩ ⟨3, 9⟩ []
                    , .mk 16 "=" "=" none ⟨3, 10⟩ ⟨3, 11⟩ []
                    , .mk 17 "number" "2" (some "value") ⟨3, 12⟩ ⟨3, 13⟩ [] ]
                , .mk 18 ";" ";" none ⟨3, 13⟩ ⟨3, 14⟩ [] ]
            , .mk 19 "expression_statement" "use(x);" none ⟨4, 4⟩ ⟨4, 11⟩
                [ .mk 20 "call_expression" "use(x)" none ⟨4, 4⟩ ⟨4, 10⟩
                    [ .mk 21 "identifier" "use" (some "function") ⟨4, 4⟩ ⟨4, 7⟩ []
                    , .mk 22 "arguments" "(x)" (some "arguments") ⟨4, 7⟩ ⟨4, 10⟩
                        [ .mk 23 "(" "(" none ⟨4, 7⟩ ⟨4, 8⟩ []
                        , .mk 24 "identifier" "x" none ⟨4, 8⟩ ⟨4, 9⟩ []
                        , .mk 25 ")" ")" none ⟨4, 9⟩ ⟨4, 10⟩ [] ] ]
                , .mk 26 ";" ";" none ⟨4, 10⟩ ⟨4, 11⟩ [] ]
            , .mk 27 "\x7d" "\x7d" none ⟨5, 2⟩ ⟨5, 3⟩ [] ]
        , .mk 28 "\x7d" "\x7d" none ⟨6, 0⟩ ⟨6, 1⟩ [] ] ]

/-- CST of the one-line file `const {a, b: renamed} = obj;` (the spec's
destructuring example). -/
def destructuring : TSNode :=
  .mk 0 "program" "const \x7ba, b: renamed\x7d = obj;" none ⟨0, 0⟩ ⟨0, 28⟩
    [ .mk 1 "lexical_declaration" "const \x7ba, b: renamed\x7d = obj;" none ⟨0, 0⟩ ⟨0, 28⟩
        [ .mk 2 "const" "const" none ⟨0, 0⟩ ⟨0, 5⟩ []
        , .mk 3 "variable_declarator" "\x7ba, b: renamed\x7d = obj" none ⟨0, 6⟩ ⟨0, 27⟩
            [ .mk 4 "object_pattern" "\x7ba, b: renamed\x7d" (some "name") ⟨0, 6⟩ ⟨0, 21⟩
                [ .mk 5 "\x7b" "\x7b" none ⟨0, 6⟩ ⟨0, 7⟩ []
                , .mk 6 "shorthand_property_identifier_pattern" "a" none ⟨0, 7⟩ ⟨0, 8⟩ []
                , .mk 7 "," "," none ⟨0, 8⟩ ⟨0, 9⟩ []
                , .mk 8 "pair_pattern" "b: renamed" none ⟨0, 10⟩ ⟨0, 20⟩
                    [ .mk 9 "property_identifier" "b" (some "key") ⟨0, 10⟩ ⟨0, 11⟩ []
                    , .mk 10 ":" ":" none ⟨0, 11⟩ ⟨0, 12⟩ []
                    , .mk 11 "identifier" "renamed" (some "value") ⟨0, 13⟩ ⟨0, 20⟩ [] ]
                , .mk 12 "\x7d" "\x7d" none ⟨0, 20⟩ ⟨0, 21⟩ [] ]
            , .mk 13 "=" "=" none ⟨0, 22⟩ ⟨0, 23⟩ []
            , .mk 14 "identifier" "obj" (some "value") ⟨0, 24⟩ ⟨0, 27⟩ [] ]
        , .mk 15 ";" ";" none ⟨0, 27⟩ ⟨0, 28⟩ [] ] ]

end Trees

namespace DataFlow

/-- `VariableDef` of `data_flow_analysis.py` (ids come from `uuid.uuid4()`,
embedded as reads from the explicit id supply). -/
structure VariableDef where
  id : String
  name : String
  kind : String
  scope_id : String
  start_line : Nat
  end_line : Nat
deriving Repr, DecidableEq

/-- `VariableUsage` of `data_flow_analysis.py`. -/
structure VariableUsage where
  id : String
  name : String
  scope_id : String
  def_id : Option String
  start_line : Nat
  end_line : Nat
  context : String
  attribute_name : Option String
deriving Repr, DecidableEq

/-- `Scope` of `data_flow_analysis.py`: symbol table plus exclusively owned
child scopes.  The `vars` field embeds the Python `variables` dict
(`variables` is a reserved word in Lean).  The human-readable `label`
(computed via the `TreeSitterAnalyzer` naming heuristics of a different
module) is omitted: no claim under verification depends on label text. -/
inductive Scope : Type where
  | mk (id : String) (type : String) (parent_id : Option String)
      (start_line end_line : Nat)
      (vars : List (String × VariableDef)) (children : List Scope)

def Scope.id : Scope → String
  | .mk i _ _ _ _ _ _ => i

def Scope.type : Scope → String
  | .mk _ t _ _ _ _ _ => t

def Scope.parent_id : Scope → Option String
  | .mk _ _ p _ _ _ _ => p

def Scope.start_line : Scope → Nat
  | .mk _ _ _ s _ _ _ => s

def Scope.end_line : Scope → Nat
  | .mk _ _ _ _ e _ _ => e

def Scope.vars : Scope → List (String × VariableDef)
  | .mk _ _ _ _ _ v _ => v

def Scope.children : Scope → List Scope
  | .mk _ _ _ _ _ _ cs => cs

/-- `scope.variables[name] = definition`. -/
def Scope.setVar (s : Scope) (name : String) (d : VariableDef) : Scope :=
  match s with
  | .mk i t p sl el v cs => .mk i t p sl el (setAssoc v name d) cs

/-- `parent.children.append(child)` (the embedding attaches a child scope to
its parent when the child is popped, i.e. when it is complete; the Python
code appends the shared mutable object at creation time and never reads
`children` before the traversal finishes, so the resulting tree is the
same). -/
def Scope.addChild (s : Scope) (child : Scope) : Scope :=
  match s with
  | .mk i t p sl el v cs => .mk i t p sl el v (cs ++ [child])

/-- `DataFlowAnalyzer` traversal state: the scope stack (head = top),
recorded usages, the `definitions` id map, and the number of ids already
drawn from the uuid supply. -/
structure DFState where
  stack : List Scope
  usages : List VariableUsage
  definitions : List (String × VariableDef)
  fresh : Nat

/-- `DataFlowAnalyzer._is_scope_boundary`: unlike the overlay analyzer,
`statement_block` is a boundary unconditionally. -/
def SCOPE_BOUNDARY_KINDS : List String :=
  [ "function_declaration", "function_expression", "arrow_function",
    "method_definition", "class_declaration", "statement_block",
    "jsx_element", "jsx_self_closing_element", "for_statement",
    "catch_clause", "finally_clause", "switch_statement", "switch_case",
    "switch_default", "while_statement", "do_statement", "if_statement" ]

def is_scope_boundary (n : TSNode) : Bool :=
  SCOPE_BOUNDARY_KINDS.contains n.ntype

/-- `parent.child_by_field_name(f) == n` (comparison with `None` is false). -/
def matchesField (p : TSNode) (f : String) (n : TSNode) : Bool :=
  match p.childByField f with
  | some m => m.sameAs n
  | none => false

/-- `DataFlowAnalyzer._get_scope_type`; the Python code reads `node.parent`
and `node.parent.parent`, which the embedding passes as the ancestor list
(nearest first).  The byte-span comparison against the if-statement's
`consequence` field is embedded as start/end position equality. -/
def get_scope_type (ancestors : List TSNode) (n : TSNode) : String :=
  if ["function_declaration", "function_expression", "arrow_function",
      "method_definition"].contains n.ntype then "function"
  else if n.ntype == "class_declaration" then "class"
  else if n.ntype == "jsx_element" || n.ntype == "jsx_self_closing_element" then "jsx"
  else if n.ntype == "if_statement" then "if"
  else if n.ntype == "for_statement" then "for"
  else if n.ntype == "catch_clause" then "catch"
  else if n.ntype == "finally_clause" then "finally"
  else if n.ntype == "switch_statement" then "switch"
  else if n.ntype == "switch_case" then "case"
  else if n.ntype == "switch_default" then "default"
  else if n.ntype == "while_statement" then "while"
  else if n.ntype == "do_statement" then "do"
  else if n.ntype == "block" || n.ntype == "statement_block" then
    match ancestors with
    | [] => "block"
    | parent :: rest =>
      if parent.ntype == "try_statement" then "try"
      else if parent.ntype == "if_statement"
          && (match parent.childByField "consequence" with
              | some consequence =>
                consequence.startPos == n.startPos && consequence.endPos == n.endPos
              | none => false) then "if_branch"
      else if parent.ntype == "else_clause"
          && (match rest with
              | gp :: _ => gp.ntype == "if_statement"
              | [] => false) then "else_branch"
      else "block"
  else
    -- Unreachable: `_get_scope_type` is only invoked on scope-boundary
    -- nodes, and every boundary kind is matched above (the Python function
    -- would fall off the end and return None here).
    ""

/-- `DataFlowAnalyzer._add_definition`: draw a fresh id, register the
definition in the scope addressed by `scope_offset` relative to the top of
the stack (with the out-of-range fallback to the bottom/global scope), and
record it in the `definitions` map. -/
def add_definition (supply : Nat → String) (node : TSNode) (kind : String)
    (scope_offset : Int) (st : DFState) : DFState :=
  match st.stack with
  | [] => st  -- unreachable: the global scope is always on the stack
  | _ :: _ =>
    let name := node.text
    let scope_idx : Int := -1 + scope_offset
    -- Python stack[-k] counts from the top; the embedded stack is head-first.
    let pos : Nat :=
      if scope_idx.natAbs > st.stack.length then st.stack.length - 1
      else scope_idx.natAbs - 1
    match st.stack.get? pos with
    | none => st  -- unreachable given the `pos` arithmetic above
    | some scope =>
      let def_id := supply st.fresh
      let definition : VariableDef :=
        { id := def_id, name := name, kind := kind, scope_id := scope.id,
          start_line := node.startPos.row + 1, end_line := node.endPos.row + 1 }
      { st with
        stack := st.stack.set pos (scope.setVar name definition),
        definitions := setAssoc st.definitions def_id definition,
        fresh := st.fresh + 1 }

/-- `DataFlowAnalyzer._resolve_variable`: walk the scope stack from the top
and return the id of the first matching definition. -/
def resolve_variable (name : String) : List Scope → Option String
  | [] => none
  | scope :: rest =>
    match lookupAssoc scope.vars name with
    | some d => some d.id
    | none => resolve_variable name rest

/-- `DataFlowAnalyzer._is_jsx_tag_name`. -/
def is_jsx_tag_name (n : TSNode) (ancestors : List TSNode) : Bool :=
  match ancestors with
  | [] => false
  | parent :: _ =>
    (parent.ntype == "jsx_opening_element" && matchesField parent "name" n)
    || (parent.ntype == "jsx_closing_element" && matchesField parent "name" n)
    || (parent.ntype == "jsx_self_closing_element" && matchesField parent "name" n)

/-- The upward walk of `DataFlowAnalyzer._get_jsx_attribute_name` over the
node followed by its ancestors. -/
def jsx_attr_walk : List TSNode → Option String
  | [] => none
  | curr :: rest =>
    if curr.ntype == "jsx_attribute" then
      match curr.childByField "property" with
      | some prop => some prop.text
      | none =>
        match curr.children.find? (fun c => c.ntype == "property_identifier") with
        | some child => some child.text
        | none => none
    else if is_scope_boundary curr then none
    else jsx_attr_walk rest

def get_jsx_attribute_name (n : TSNode) (ancestors : List TSNode) : Option String :=
  jsx_attr_walk (n :: ancestors)

/-- `DataFlowAnalyzer._add_usage`. -/
def add_usage (supply : Nat → String) (n : TSNode) (ancestors : List TSNode)
    (st : DFState) : DFState :=
  if is_jsx_tag_name n ancestors then st
  else
    match st.stack with
    | [] => st  -- unreachable: the global scope is always on the stack
    | current_scope :: _ =>
      let name := n.text
      let def_id := resolve_variable name st.stack
      let attribute_name := get_jsx_attribute_name n ancestors
      let usage : VariableUsage :=
        { id := supply st.fresh, name := name, scope_id := current_scope.id,
          def_id := def_id, start_line := n.startPos.row + 1,
          end_line := n.endPos.row + 1, context := "read",
          attribute_name := attribute_name }
      { st with usages := st.usages ++ [usage], fresh := st.fresh + 1 }

/-- `DataFlowAnalyzer._handle_definitions` (sequential `if`s as in the
source; destructuring patterns in `variable_declarator` names register
nothing). -/
def handle_definitions (supply : Nat → String) (n : TSNode) (st : DFState) : DFState :=
  let st :=
    if n.ntype == "variable_declarator" then
      match n.childByField "name" with
      | some name_node =>
        if name_node.ntype == "identifier" then
          add_definition supply name_node "variable" 0 st
        else
          st  -- array/object pattern: explicit `pass` in the source
      | none => st
    else st
  let st :=
    if n.ntype == "required_parameter" || n.ntype == "optional_parameter" then
      n.children.foldl
        (fun st child =>
          if child.ntype == "identifier" then add_definition supply child "param" 0 st
          else st) st
    else st
  let st :=
    if n.ntype == "function_declaration" then
      match n.childByField "name" with
      | some name_node => add_definition supply name_node "function" (-1) st
      | none => st
    else st
  if n.ntype == "class_declaration" then
    match n.childByField "name" with
    | some name_node => add_definition supply name_node "class" (-1) st
    | none => st
  else st

/-- `DataFlowAnalyzer._handle_usages`. -/
def handle_usages (supply : Nat → String) (n : TSNode) (ancestors : List TSNode)
    (st : DFState) : DFState :=
  if n.ntype == "identifier" then
    match ancestors with
    | [] => st  -- `node.parent` is never None for an identifier
    | parent :: _ =>
      if parent.ntype == "variable_declarator" && matchesField parent "name" n then st
      else if parent.ntype == "function_declaration" && matchesField parent "name" n then st
      else if parent.ntype == "class_declaration" && matchesField parent "name" n then st
      else if parent.ntype == "required_parameter" || parent.ntype == "optional_parameter" then st
      else if parent.ntype == "property_identifier" then st
      else add_usage supply n ancestors st
  else st

/-- Pop the completed top scope and attach it to its parent's child list. -/
def pop_scope (st : DFState) : DFState :=
  match st.stack with
  | s :: parent :: rest => { st with stack := parent.addChild s :: rest }
  | _ => st  -- unreachable: only pushed scopes are popped

/-- `DataFlowAnalyzer._traverse`: push a scope at boundaries, record
definitions and usages, recurse into the children (with
`_traverse_if_statement_children` inlined for `if_statement` nodes: the
condition expression gets a dedicated `if_condition` scope and is skipped in
the ordinary child loop), then pop the scope.  Fuel is structural; fuel
`sizeOf n` never exhausts. -/
def traverse (supply : Nat → String) :
    Nat → TSNode → List TSNode → DFState → DFState
  | 0, _, _, st => st  -- fuel exhausted: unreachable for fuel ≥ sizeOf n
  | fuel + 1, n, ancestors, st =>
    let pushRes :=
      if is_scope_boundary n then
        match st.stack with
        | top :: _ =>
          let scope : Scope := .mk (supply st.fresh) (get_scope_type ancestors n)
            (some top.id) (n.startPos.row + 1) (n.endPos.row + 1) [] []
          (true, { st with stack := scope :: st.stack, fresh := st.fresh + 1 })
        | [] => (false, st)  -- unreachable: the global scope is always on the stack
      else (false, st)
    let created := pushRes.1
    let st1 := pushRes.2
    let st2 := handle_definitions supply n st1
    let st3 := handle_usages supply n ancestors st2
    let st4 :=
      if n.ntype == "if_statement" then
        -- `_traverse_if_statement_children`
        let condition := n.childByField "condition"
        let stc :=
          match condition with
          | some condition_node =>
            match st3.stack with
            | top :: _ =>
              let condition_scope : Scope := .mk (supply st3.fresh) "if_condition"
                (some top.id) (condition_node.startPos.row + 1)
                (condition_node.endPos.row + 1) [] []
              let stP := { st3 with stack := condition_scope :: st3.stack,
                                    fresh := st3.fresh + 1 }
              pop_scope (traverse supply fuel condition_node (n :: ancestors) stP)
            | [] => st3  -- unreachable
          | none => st3
        n.children.foldl
          (fun st c =>
            match condition with
            | some sk =>
              if c.sameAs sk then st else traverse supply fuel c (n :: ancestors) st
            | none => traverse supply fuel c (n :: ancestors) st)
          stc
      else
        n.children.foldl (fun st c => traverse supply fuel c (n :: ancestors) st) st3
    if created then pop_scope st4 else st4

/-- `DataFlowAnalyzer.analyze_file` up to `_build_graph`: create the global
scope (drawing its id from the uuid supply) and run the traversal.  `fuel`
is the structural recursion bound (any value at least the node count of the
tree is sufficient). -/
def analyze (supply : Nat → String) (fuel : Nat) (tree : TSNode) : DFState :=
  let global_scope : Scope := .mk (supply 0) "global" none
    (tree.startPos.row + 1) (tree.endPos.row + 1) [] []
  traverse supply fuel tree []
    { stack := [global_scope], usages := [], definitions := [], fresh := 1 }

/-- An ELK graph edge as emitted by `_build_graph` (`etype` is
`"control-flow"` for the synthetic layout edges and `none` for
definition → usage flow edges). -/
structure GEdge where
  id : String
  source : String
  target : String
  etype : Option String
  defStartLine : Option Nat
  defEndLine : Option Nat
  usageStartLine : Option Nat
  usageEndLine : Option Nat
deriving Repr, DecidableEq

/-- An ELK graph node as emitted by `build_scope_node`: scope clusters
(ntype = the scope type), `"variable"` nodes and `"usage"` nodes.  Pixel
sizing and layout options are omitted; the cluster label is embedded as its
fallback (`scope.label or scope.type`) since scope labels are omitted. -/
inductive GNode : Type where
  | mk (id : String) (ntype : String) (label : String)
      (startLine endLine : Nat) (children : List GNode)

def GNode.id : GNode → String
  | .mk i _ _ _ _ _ => i

def GNode.ntype : GNode → String
  | .mk _ t _ _ _ _ => t

def GNode.label : GNode → String
  | .mk _ _ l _ _ _ => l

def GNode.startLine : GNode → Nat
  | .mk _ _ _ s _ _ => s

def GNode.endLine : GNode → Nat
  | .mk _ _ _ _ e _ => e

def GNode.children : GNode → List GNode
  | .mk _ _ _ _ _ cs => cs

/-- The synthetic control-flow edges `_build_graph` adds for one adjacent
pair of children (all four `if`s of the Python loop body). -/
def control_flow_pair_edges (scope_type : String) (curr next : GNode) : List GEdge :=
  let mkEdge : Unit → GEdge := fun _ =>
    { id := "flow-" ++ curr.id ++ "-" ++ next.id, source := curr.id,
      target := next.id, etype := some "control-flow", defStartLine := none,
      defEndLine := none, usageStartLine := none, usageEndLine := none }
  (if curr.ntype == "try" && (next.ntype == "catch" || next.ntype == "finally")
   then [mkEdge ()] else [])
  ++ (if curr.ntype == "catch" && next.ntype == "finally" then [mkEdge ()] else [])
  ++ (if curr.ntype == "if_branch" && next.ntype == "else_branch" then [mkEdge ()] else [])
  ++ (if scope_type == "switch" && (curr.ntype == "case" || curr.ntype == "default")
        && (next.ntype == "case" || next.ntype == "default")
      then [mkEdge ()] else [])

/-- `build_scope_node` of `_build_graph`: a scope cluster contains variable
nodes for its own bindings, nested clusters for child scopes and usage
nodes for usages recorded in it; each resolved usage contributes a
definition → usage edge, and adjacent children contribute the synthetic
control-flow edges.  Edges are returned in the order the Python code
appends them to the shared `elk_edges` list.  Fuel is structural; fuel
`sizeOf s` never exhausts. -/
def build_scope_node (usages : List VariableUsage)
    (definitions : List (String × VariableDef)) :
    Nat → Scope → GNode × List GEdge
  | 0, s => (GNode.mk s.id s.type s.type s.start_line s.end_line [], [])
    -- fuel exhausted: unreachable for fuel ≥ sizeOf s
  | fuel + 1, s =>
    let varNodes := s.vars.map (fun p =>
      GNode.mk p.2.id "variable" (p.2.name ++ " (" ++ p.2.kind ++ ")")
        p.2.start_line p.2.end_line [])
    let childRes := s.children.foldl
      (fun acc c =>
        let r := build_scope_node usages definitions fuel c
        (acc.1 ++ [r.1], acc.2 ++ r.2))
      (([] : List GNode), ([] : List GEdge))
    let scope_usages := usages.filter (fun u => u.scope_id == s.id)
    let usageNodes := scope_usages.map (fun u =>
      GNode.mk u.id "usage"
        (match u.attribute_name with
         | some a => a ++ ": " ++ u.name
         | none => u.name)
        u.start_line u.end_line [])
    let defEdges := scope_usages.filterMap (fun u =>
      match u.def_id with
      | some did =>
        let definition := lookupAssoc definitions did
        some { id := "edge-" ++ did ++ "-" ++ u.id, source := did, target := u.id,
               etype := none,
               defStartLine := definition.map (fun d => d.start_line),
               defEndLine := definition.map (fun d => d.end_line),
               usageStartLine := some u.start_line,
               usageEndLine := some u.end_line }
      | none => none)
    let children := varNodes ++ childRes.1 ++ usageNodes
    let flowEdges := (children.zip children.tail).foldl
      (fun acc pr => acc ++ control_flow_pair_edges s.type pr.1 pr.2) []
    (GNode.mk s.id s.type s.type s.start_line s.end_line children,
     childRes.2 ++ defEdges ++ flowEdges)

/-- `_build_graph` on the final traversal state: the root is the unique
parentless scope (after the traversal the stack holds exactly the completed
global scope). -/
def build_graph (fuel : Nat) (st : DFState) : GNode × List GEdge :=
  match st.stack with
  | root :: _ => build_scope_node st.usages st.definitions fuel root
  | [] => (GNode.mk "" "" "" 0 0 [], [])  -- unreachable

/-- `DataFlowAnalyzer.analyze_file` on a parsed tree. -/
def analyze_file (supply : Nat → String) (fuel : Nat) (tree : TSNode) : GNode × List GEdge :=
  build_graph fuel (analyze supply fuel tree)

/-- Does any node of the graph (the given node or a descendant) satisfy the
predicate?  (Fuel-structural; fuel `sizeOf g` never exhausts.) -/
def GNode.anyNodeFuel (p : GNode → Bool) : Nat → GNode → Bool
  | 0, _ => false
  | fuel + 1, g => p g || g.children.any (fun c => GNode.anyNodeFuel p fuel c)

end DataFlow

namespace Trees

/-- The `statement_block` body of the function below. -/
def funcBody : TSNode :=
  .mk 9 "statement_block" "" (some "body") ⟨0, 19⟩ ⟨2, 1⟩
    [ .mk 10 "\x7b" "\x7b" none ⟨0, 19⟩ ⟨0, 20⟩ []
    , .mk 11 "lexical_declaration" "const localVar = 1;" none ⟨1, 2⟩ ⟨1, 21⟩
        [ .mk 12 "const" "const" none ⟨1, 2⟩ ⟨1, 7⟩ []
        , .mk 13 "variable_declarator" "localVar = 1" none ⟨1, 8⟩ ⟨1, 20⟩
            [ .mk 14 "identifier" "localVar" (some "name") ⟨1, 8⟩ ⟨1, 16⟩ []
            , .mk 15 "=" "=" none ⟨1, 17⟩ ⟨1, 18⟩ []
            , .mk 16 "number" "1" (some "value") ⟨1, 19⟩ ⟨1, 20⟩ [] ]
        , .mk 17 ";" ";" none ⟨1, 20⟩ ⟨1, 21⟩ [] ]
    , .mk 18 "\x7d" "\x7d" none ⟨2, 0⟩ ⟨2, 1⟩ [] ]

/-- The `function_declaration` node of the program below. -/
def funcDecl : TSNode :=
  .mk 1 "function_declaration" "" none ⟨0, 0⟩ ⟨2, 1⟩
    [ .mk 2 "function" "function" none ⟨0, 0⟩ ⟨0, 8⟩ []
    , .mk 3 "identifier" "myFunc" (some "name") ⟨0, 9⟩ ⟨0, 15⟩ []
    , .mk 4 "formal_parameters" "(p)" (some "parameters") ⟨0, 15⟩ ⟨0, 18⟩
        [ .mk 5 "(" "(" none ⟨0, 15⟩ ⟨0, 16⟩ []
        , .mk 6 "required_parameter" "p" none ⟨0, 16⟩ ⟨0, 17⟩
            [ .mk 7 "identifier" "p" (some "pattern") ⟨0, 16⟩ ⟨0, 17⟩ [] ]
        , .mk 8 ")" ")" none ⟨0, 17⟩ ⟨0, 18⟩ [] ]
    , funcBody ]

/-- CST of

```
function myFunc(p) {
  const localVar = 1;
}
```

(the shape exercised by `test_data_flow.py::test_function_scope`). -/
def funcWithBody : TSNode :=
  .mk 0 "program" "" none ⟨0, 0⟩ ⟨2, 1⟩ [ funcDecl ]

/-- CST of

```
var x = 1;
x;
var x = 2;
```

(a usage resolved to the first `x`, whose name is then re-declared in the
same scope). -/
def redeclared : TSNode :=
  .mk 0 "program" "" none ⟨0, 0⟩ ⟨2, 10⟩
    [ .mk 1 "variable_declaration" "var x = 1;" none ⟨0, 0⟩ ⟨0, 10⟩
        [ .mk 2 "var" "var" none ⟨0, 0⟩ ⟨0, 3⟩ []
        , .mk 3 "variable_declarator" "x = 1" none ⟨0, 4⟩ ⟨0, 9⟩
            [ .mk 4 "identifier" "x" (some "name") ⟨0, 4⟩ ⟨0, 5⟩ []
            , .mk 5 "=" "=" none ⟨0, 6⟩ ⟨0, 7⟩ []
            , .mk 6 "number" "1" (some "value") ⟨0, 8⟩ ⟨0, 9⟩ [] ]
        , .mk 7 ";" ";" none ⟨0, 9⟩ ⟨0, 10⟩ [] ]
    , .mk 8 "expression_statement" "x;" none ⟨1, 0⟩ ⟨1, 2⟩
        [ .mk 9 "identifier" "x" none ⟨1, 0⟩ ⟨1, 1⟩ []
        , .mk 10 ";" ";" none ⟨1, 1⟩ ⟨1, 2⟩ [] ]
    , .mk 11 "variable_declaration" "var x = 2;" none ⟨2, 0⟩ ⟨2, 10⟩
        [ .mk 12 "var" "var" none ⟨2, 0⟩ ⟨2, 3⟩ []
        , .mk 13 "variable_declarator" "x = 2" none ⟨2, 4⟩ ⟨2, 9⟩
            [ .mk 14 "identifier" "x" (some "name") ⟨2, 4⟩ ⟨2, 5⟩ []
            , .mk 15 "=" "=" none ⟨2, 6⟩ ⟨2, 7⟩ []
            , .mk 16 "number" "2" (some "value") ⟨2, 8⟩ ⟨2, 9⟩ [] ]
        , .mk 17 ";" ";" none ⟨2, 9⟩ ⟨2, 10⟩ [] ] ]

/-- A deterministic stand-in for the stream of `uuid.uuid4()` draws of one
run: the n-th draw is `u<n>`. -/
def supplyU : Nat → String := fun n => "u" ++ toString n

/-- The id stream of a second run (uuid4 draws differ between runs). -/
def supplyV : Nat → String := fun n => "v" ++ toString n

end Trees

namespace FocusOverlay

/-- The scope chain with the standard fuel, as walked by `_resolve` from a
starting scope: the scope itself followed by its successive parents. -/
def scope_chain (scopes : List Scope) (s : Scope) : List Scope :=
  scope_chain_fuel scopes (scopes.length + 1) s

/-- Claim-side notion: the scope `s` is the focus scope `F` itself or a
descendant of it (`F` appears on `s`'s ancestor chain). -/
def is_descendant_or_self (scopes : List Scope) (s F : Scope) : Prop :=
  F.id ∈ ancestor_chain scopes s.id

/-- Claim-side notion: the scope `s` is a strict ancestor of the focus
scope `F`. -/
def is_strict_ancestor_of (scopes : List Scope) (s F : Scope) : Prop :=
  s.id ∈ ancestor_chain scopes F.id ∧ s.id ≠ F.id

end FocusOverlay

namespace Wit

/-- Witness scope tree: a global scope containing a function scope
containing a block scope. -/
def wG : FocusOverlay.Scope :=
  { id := "global:1:10:1", type := "global", parent_id := none,
    start_line := 1, end_line := 10, vars := [] }

def wF : FocusOverlay.Scope :=
  { id := "function:2:9:2", type := "function", parent_id := some "global:1:10:1",
    start_line := 2, end_line := 9, vars := [] }

def wB : FocusOverlay.Scope :=
  { id := "block:3:8:3", type := "block", parent_id := some "function:2:9:2",
    start_line := 3, end_line := 8, vars := [] }

def wscopes : List FocusOverlay.Scope := [wG, wF, wB]

/-- Witness binding in the block scope and a usage resolved to it. -/
def wD : FocusOverlay.Def :=
  { name := "v", kind := "local", scope_id := "block:3:8:3", scope_type := "block",
    def_line := 4, def_col := 2, import_source := none, import_is_internal := none }

def wU : FocusOverlay.Usage :=
  { name := "v", line := 5, start_col := 0, end_col := 1, resolved := some wD }

def wTok : FocusOverlay.OverlayToken :=
  { fileLine := 5, startCol := 0, endCol := 1, category := "local",
    symbolId := "def:w.ts:4:2:v", tooltip := "Local declaration (line 4)" }

/-- Witness parameter binding and a usage resolved to it. -/
def wDParam : FocusOverlay.Def :=
  { name := "p", kind := "param", scope_id := "function:2:9:2",
    scope_type := "function", def_line := 2, def_col := 4,
    import_source := none, import_is_internal := none }

def wUParam : FocusOverlay.Usage :=
  { name := "p", line := 5, start_col := 2, end_col := 3, resolved := some wDParam }

def wTokParam : FocusOverlay.OverlayToken :=
  { fileLine := 5, startCol := 2, endCol := 3, category := "param",
    symbolId := "def:w.ts:2:4:p", tooltip := "Parameter" }

end Wit

namespace FocusOverlay

/-- The derivation shapes of overlay symbol ids: from the bare name for
builtins/unresolved names, from (file path, import source, name) for import
bindings, and from (file path, declaration line, declaration column, name)
for every other binding. -/
def symbol_id_derivation (file_path : String) (u : Usage) (t : OverlayToken) : Prop :=
  match u.resolved with
  | none =>
    t.symbolId = "builtin:" ++ u.name ∨ t.symbolId = "unresolved:" ++ u.name
  | some d =>
    (d.kind = "import"
      ∧ t.symbolId = "imp:" ++ file_path ++ ":" ++ d.import_source.getD ""
          ++ ":" ++ d.name)
    ∨ (d.kind ≠ "import"
      ∧ t.symbolId = "def:" ++ file_path ++ ":" ++ toString d.def_line ++ ":"
          ++ toString d.def_col ++ ":" ++ d.name)

end FocusOverlay

namespace DataFlow

/-- `t` occurs in the graph `g` (as `g` itself or nested in a cluster). -/
inductive GNode.Occurs : GNode → GNode → Prop where
  | refl (g : GNode) : GNode.Occurs g g
  | child {t c g : GNode} : c ∈ g.children → GNode.Occurs t c → GNode.Occurs t g

/-- Invariant of the data-flow traversal state: every definition stored in a
symbol table on the scope stack, and every definition id a recorded usage
was resolved to, is present in the `definitions` map. -/
def DefsInv (st : DFState) : Prop :=
  (∀ s ∈ st.stack, ∀ pr ∈ s.vars,
      (lookupAssoc st.definitions pr.2.id).isSome = true)
  ∧ (∀ u ∈ st.usages, ∀ did, u.def_id = some did →
      (lookupAssoc st.definitions did).isSome = true)

end DataFlow

namespace Wit

/-- The single definition → usage edge of the Scope Graph of
`var x = 1; x; var x = 2;`. -/
def wEdge : DataFlow.GEdge :=
  { id := "edge-u1-u2", source := "u1", target := "u2", etype := none,
    defStartLine := some 1, defEndLine := some 1,
    usageStartLine := some 2, usageEndLine := some 2 }

end Wit

/-- `sizeOf` of the child list is below `sizeOf` of the node (for the
termination measures of the tree traversals below). -/
theorem TSNode.sizeOf_children_lt (n : TSNode) : sizeOf n.children < sizeOf n := by
  cases n with
  | mk nid ntype text fieldName startPos endPos cs =>
    simp [TSNode.children]

/-- A child is `sizeOf`-smaller than its parent node. -/
theorem TSNode.sizeOf_lt_of_mem_children {c n : TSNode} (h : c ∈ n.children) :
    sizeOf c < sizeOf n :=
  lt_trans (List.sizeOf_lt_of_mem h) n.sizeOf_children_lt

/-- A field-addressed child is `sizeOf`-smaller than its parent node. -/
theorem TSNode.sizeOf_lt_of_childByField {c n : TSNode} {f : String}
    (h : n.childByField f = some c) : sizeOf c < sizeOf n :=
  TSNode.sizeOf_lt_of_mem_children (List.mem_of_find?_eq_some h)

namespace FocusOverlay

/-- Helper for C3: `resolve_fuel` returns exactly the first symbol-table hit
along the parent chain. -/
theorem resolve_fuel_eq_findSome (scopes : List Scope) (name : String) :
    ∀ (fuel : Nat) (s : Scope),
      resolve_fuel scopes name fuel s
        = (scope_chain_fuel scopes fuel s).findSome?
            (fun sc => lookupAssoc sc.vars name) := by
  intro fuel
  induction fuel with
  | zero => intro s; rfl
  | succ fuel ih =>
    intro s
    cases h : lookupAssoc s.vars name with
    | some d =>
      simp [resolve_fuel, scope_chain_fuel, List.findSome?_cons, h]
    | none =>
      cases hp : s.parent_id with
      | none =>
        simp [resolve_fuel, scope_chain_fuel, List.findSome?_cons, h, hp]
      | some pid =>
        cases hf : findScope scopes pid with
        | none =>
          simp [resolve_fuel, scope_chain_fuel, List.findSome?_cons, h, hp, hf]
        | some p =>
          simp [resolve_fuel, scope_chain_fuel, List.findSome?_cons, h, hp, hf, ih p]

end FocusOverlay

/-- C3: for every candidate usage, resolution walks the scope chain starting
at the usage's containing scope, proceeding through successive parents only,
and returns the binding of the first scope whose symbol table contains the
name (`none`, i.e. unresolved, when the chain ends at the root without a
match).  Concretely, for `{ let x = 1; { let x = 2; use(x); } }` the
analyzer records exactly one `x` usage and it resolves to the inner binding
(declared on line 4), never the outer one (line 2). -/
theorem c3_resolution_walks_scope_chain :
    (∀ (scopes : List FocusOverlay.Scope) (name : String) (s : FocusOverlay.Scope),
        FocusOverlay.resolve scopes name s
          = (FocusOverlay.scope_chain scopes s).findSome?
              (fun sc => lookupAssoc sc.vars name))
    ∧ ((FocusOverlay.run_phases Trees.nullResolver 64 Trees.shadowing).2.2.filter
          (fun u => u.name == "x")
        = [{ name := "x", line := 5, start_col := 8, end_col := 9,
             resolved := some { name := "x", kind := "local",
                                scope_id := "block:3:6:3", scope_type := "block",
                                def_line := 4, def_col := 8,
                                import_source := none, import_is_internal := none } }]) :=
  ⟨fun scopes name s => FocusOverlay.resolve_fuel_eq_findSome scopes name _ s,
   by decide⟩

/-- C2 (code bug): the constant literal keywords are NOT excluded from
candidate usages: `phase2_traverse` lists `"true"`, `"false"`, `"null"` and
`"undefined"` among the candidate node kinds, so for the file
`const flag = true;` the Token Overlay contains a token (category
`unresolved`) whose span is exactly the `true` keyword — for every Module
Resolver and every sufficient recursion fuel.  This contradicts the spec and
the repository's own test `test_unresolved_literals.py`, which asserts that
these literals appear in no category at all. -/
theorem c2_literal_keyword_token_emitted :
    ∀ (resolver : String → Bool × Option String) (fuel : Nat),
      FocusOverlay.compute_focus_overlay resolver (fuel + 64) "t.ts" Trees.constTrue 1 1 1 1
        = [{ fileLine := 1, startCol := 13, endCol := 17, category := "unresolved",
             symbolId := "unresolved:true", tooltip := "Unresolved identifier" }] :=
  fun _ _ => rfl

/-- C5: a usage that resolves to a binding of kind `param` is classified
`param` for every choice of focus scope, focus chain and focus/slice ranges:
whenever the token-building step emits a token for such a usage, its
category is `"param"` (never `capture` or `local`). -/
theorem c5_parameter_invariance
    (file_path : String) (scopes : List FocusOverlay.Scope)
    (global_scope focus_fn_scope : FocusOverlay.Scope)
    (focus_fn_chain : List String) (slice_s slice_e focus_s focus_e : Int)
    (u : FocusOverlay.Usage) (d : FocusOverlay.Def) (t : FocusOverlay.OverlayToken)
    (hres : u.resolved = some d) (hkind : d.kind = "param")
    (ht : FocusOverlay.token_for_usage file_path scopes global_scope focus_fn_scope
      focus_fn_chain slice_s slice_e focus_s focus_e u = some t) :
    t.category = "param" := by
  simp only [FocusOverlay.token_for_usage, hres, hkind] at ht
  split at ht
  · exact Option.noConfusion ht
  split at ht
  · exact Option.noConfusion ht
  split at ht
  · exact Option.noConfusion ht
  simp only [show (("param" : String) == "import") = false from rfl,
    Bool.false_eq_true, if_false] at ht
  injection ht with h
  rw [← h]

namespace FocusOverlay

theorem pair_lt_iff (a b : Int × Int) :
    pair_lt a b = true ↔ (a.1 < b.1 ∨ (a.1 = b.1 ∧ a.2 < b.2)) := by
  simp [pair_lt]

theorem pair_lt_eq_false_iff (a b : Int × Int) :
    pair_lt a b = false ↔ ¬(a.1 < b.1 ∨ (a.1 = b.1 ∧ a.2 < b.2)) := by
  rw [← pair_lt_iff]
  cases h : pair_lt a b <;> simp

/-- `min(candidates, key=...)` returns an element of the candidate list. -/
theorem min_by_key_mem (key : Scope → Int × Int) :
    ∀ (l : List Scope) (best : Scope), min_by_key key best l ∈ best :: l := by
  intro l
  induction l with
  | nil => intro best; simp [min_by_key]
  | cons s rest ih =>
    intro best
    rw [min_by_key]
    split
    · rcases List.mem_cons.mp (ih s) with h | h
      · rw [h]; exact List.mem_cons_of_mem _ (List.mem_cons_self _ _)
      · exact List.mem_cons_of_mem _ (List.mem_cons_of_mem _ h)
    · rcases List.mem_cons.mp (ih best) with h | h
      · rw [h]; exact List.mem_cons_self _ _
      · exact List.mem_cons_of_mem _ (List.mem_cons_of_mem _ h)

/-- `min(candidates, key=...)` returns an element whose key no candidate
beats (lexicographically smallest key; on ties the earlier element wins, so
no candidate is strictly smaller). -/
theorem min_by_key_min (key : Scope → Int × Int) :
    ∀ (l : List Scope) (best : Scope), ∀ x ∈ best :: l,
      pair_lt (key x) (key (min_by_key key best l)) = false := by
  intro l
  induction l with
  | nil =>
    intro best x hx
    rcases List.mem_cons.mp hx with h | h
    · rw [h, min_by_key, pair_lt_eq_false_iff]
      omega
    · exact absurd h (List.not_mem_nil _)
  | cons s rest ih =>
    intro best x hx
    rw [min_by_key]
    split
    · rename_i hlt
      rcases List.mem_cons.mp hx with h | h
      · -- x = best; min of s::rest already beats s, and s beats best
        have hs := ih s s (List.mem_cons_self _ _)
        rw [pair_lt_iff] at hlt
        rw [pair_lt_eq_false_iff] at hs
        rw [h, pair_lt_eq_false_iff]
        omega
      · exact ih s x h
    · rename_i hge
      have hge2 : pair_lt (key s) (key best) = false := by
        cases h2 : pair_lt (key s) (key best)
        · rfl
        · exact absurd h2 hge
      rcases List.mem_cons.mp hx with h | h
      · rw [h]; exact ih best best (List.mem_cons_self _ _)
      · rcases List.mem_cons.mp h with h | h
        · -- x = s; the result beats best and best is not beaten by s
          have hb := ih best best (List.mem_cons_self _ _)
          rw [pair_lt_eq_false_iff] at hge2 hb
          rw [h, pair_lt_eq_false_iff]
          omega
        · exact ih best x (List.mem_cons_of_mem _ h)

/-- Helper for C4: `smallest_containing_function_scope` is the Global scope
when no function scope contains the focus range, and otherwise a candidate
with lexicographically minimal `(span, start_line)` key. -/
theorem smallest_containing_spec (scopes : List Scope) (g : Scope) (fs fe : Int) :
    (function_scope_candidates scopes fs fe = [] →
       smallest_containing_function_scope scopes g fs fe = g)
    ∧ (function_scope_candidates scopes fs fe ≠ [] →
        smallest_containing_function_scope scopes g fs fe
            ∈ function_scope_candidates scopes fs fe
          ∧ ∀ s ∈ function_scope_candidates scopes fs fe,
              pair_lt (span_key s)
                (span_key (smallest_containing_function_scope scopes g fs fe)) = false) := by
  constructor
  · intro h
    rw [smallest_containing_function_scope, h]
  · intro h
    cases hc : function_scope_candidates scopes fs fe with
    | nil => exact absurd hc h
    | cons c cs =>
      rw [smallest_containing_function_scope, hc]
      exact ⟨min_by_key_mem span_key cs c, min_by_key_min span_key cs c⟩

/-- Helper: a successful scope lookup returns the scope with that id. -/
theorem findScope_id {scopes : List Scope} {sid : String} {s : Scope}
    (h : findScope scopes sid = some s) : s.id = sid := by
  have := List.find?_some h
  simpa using this

/-- Helper: the ancestor chain of a present scope starts with its own id. -/
theorem ancestor_chain_head {scopes : List Scope} {sid : String} {s : Scope}
    (h : findScope scopes sid = some s) :
    ∃ rest, ancestor_chain scopes sid = s.id :: rest := by
  rw [ancestor_chain, h]
  rw [ancestor_chain_fuel]
  exact ⟨_, rfl⟩

end FocusOverlay

/-- C4: focus-scope selection and classification for resolved usages whose
binding is neither an import, nor a parameter, nor owned by the Global
scope.  First conjunct: the focus scope `F` is the Global scope when no
Function-kind scope's span contains the focus range, and otherwise a
containing function scope with lexicographically minimal
`(span, start_line)` key (smallest span, ties broken by earliest start
line).  Second conjunct: with `F` so chosen, an emitted token is classified
`local` when the binding's owning scope is `F` or a descendant of `F`,
`capture` when the owning scope is a strict ancestor of `F` other than the
Global scope, and `local` in every remaining case. -/
theorem c4_focus_scope_selection_and_classification :
    (∀ (scopes : List FocusOverlay.Scope) (g : FocusOverlay.Scope) (fs fe : Int),
       (FocusOverlay.function_scope_candidates scopes fs fe = [] →
          FocusOverlay.smallest_containing_function_scope scopes g fs fe = g)
       ∧ (FocusOverlay.function_scope_candidates scopes fs fe ≠ [] →
            FocusOverlay.smallest_containing_function_scope scopes g fs fe
                ∈ FocusOverlay.function_scope_candidates scopes fs fe
              ∧ ∀ s ∈ FocusOverlay.function_scope_candidates scopes fs fe,
                  FocusOverlay.pair_lt (FocusOverlay.span_key s)
                    (FocusOverlay.span_key
                      (FocusOverlay.smallest_containing_function_scope scopes g fs fe))
                    = false))
    ∧ (∀ (file_path : String) (scopes : List FocusOverlay.Scope)
         (g F : FocusOverlay.Scope) (chain : List String) (ss se fs fe : Int)
         (u : FocusOverlay.Usage) (d : FocusOverlay.Def)
         (def_scope : FocusOverlay.Scope) (t : FocusOverlay.OverlayToken),
         F = FocusOverlay.smallest_containing_function_scope scopes g fs fe →
         chain = FocusOverlay.ancestor_chain scopes F.id →
         u.resolved = some d →
         d.kind ≠ "import" →
         d.kind ≠ "param" →
         FocusOverlay.findScope scopes d.scope_id = some def_scope →
         def_scope.type ≠ "global" →
         def_scope.parent_id ≠ none →
         FocusOverlay.token_for_usage file_path scopes g F chain ss se fs fe u
           = some t →
         ((FocusOverlay.is_descendant_or_self scopes def_scope F →
             t.category = "local")
          ∧ (¬FocusOverlay.is_descendant_or_self scopes def_scope F →
              FocusOverlay.is_strict_ancestor_of scopes def_scope F →
              def_scope.id ≠ g.id →
              t.category = "capture")
          ∧ (¬FocusOverlay.is_descendant_or_self scopes def_scope F →
              ¬(FocusOverlay.is_strict_ancestor_of scopes def_scope F
                  ∧ def_scope.id ≠ g.id) →
              t.category = "local"))) := by
  constructor
  · intro scopes g fs fe
    exact FocusOverlay.smallest_containing_spec scopes g fs fe
  · intro fp scopes g F chain ss se fs fe u d def_scope t hF hchain hres hki hkp
      hfs hty hpar ht
    have hkib : (d.kind == "import") = false := by simp [hki]
    have hkpb : (d.kind == "param") = false := by simp [hkp]
    have htyb : (def_scope.type == "global") = false := by simp [hty]
    have hparb : (def_scope.parent_id == none) = false := by simp [hpar]
    have hdid : def_scope.id = d.scope_id := FocusOverlay.findScope_id hfs
    have hhead : ∃ rest,
        FocusOverlay.ancestor_chain scopes def_scope.id = def_scope.id :: rest := by
      rcases FocusOverlay.ancestor_chain_head hfs with ⟨rest, hr⟩
      exact ⟨rest, by rw [hdid, hr, hdid]⟩
    simp only [FocusOverlay.token_for_usage, hres, hkib, hkpb, hfs, htyb, hparb,
      Bool.or_self, Bool.false_eq_true, if_false] at ht
    split at ht
    · exact Option.noConfusion ht
    split at ht
    · exact Option.noConfusion ht
    split at ht
    · exact Option.noConfusion ht
    cases hdc : (FocusOverlay.ancestor_chain scopes def_scope.id).contains F.id with
    | true =>
      have hdesc : FocusOverlay.is_descendant_or_self scopes def_scope F := by
        simpa [FocusOverlay.is_descendant_or_self] using hdc
      simp only [hdc, if_true] at ht
      injection ht with h
      refine ⟨fun _ => by rw [← h], fun hnd _ _ => absurd hdesc hnd,
        fun hnd _ => absurd hdesc hnd⟩
    | false =>
      have hnd : ¬FocusOverlay.is_descendant_or_self scopes def_scope F := by
        simpa [FocusOverlay.is_descendant_or_self] using hdc
      have hneF : def_scope.id ≠ F.id := by
        intro he
        rcases hhead with ⟨rest, hrest⟩
        exact hnd (by rw [FocusOverlay.is_descendant_or_self, hrest, ← he]; simp)
      simp only [hdc, Bool.false_eq_true, if_false] at ht
      cases hsc : (chain.contains def_scope.id && !(def_scope.id == g.id)) with
      | true =>
        simp only [hsc, if_true] at ht
        injection ht with h
        rw [Bool.and_eq_true, Bool.not_eq_true'] at hsc
        have hmem : def_scope.id ∈ chain := by simpa using hsc.1
        have hsa : FocusOverlay.is_strict_ancestor_of scopes def_scope F :=
          ⟨hchain ▸ hmem, hneF⟩
        have hng : def_scope.id ≠ g.id := by simpa using hsc.2
        exact ⟨fun hdesc => absurd hdesc hnd, fun _ _ _ => by rw [← h],
          fun _ hcon => absurd ⟨hsa, hng⟩ hcon⟩
      | false =>
        simp only [hsc, Bool.false_eq_true, if_false] at ht
        injection ht with h
        refine ⟨fun _ => by rw [← h], ?_, fun _ _ => by rw [← h]⟩
        intro _ hsa hng
        have hcont : chain.contains def_scope.id = true := by
          rw [hchain]
          simpa using hsa.1
        have hgb : (!(def_scope.id == g.id)) = true := by
          simp [hng]
        rw [hcont, hgb] at hsc
        simp at hsc

/-- Witness for C5 at a concrete input: the classifier emits a token for the
parameter usage and the theorem forces its category to `param`. -/
theorem c5_parameter_invariance_witness :
    FocusOverlay.token_for_usage "w.ts" Wit.wscopes Wit.wG Wit.wG
      ["global:1:10:1"] 1 10 3 7 Wit.wUParam = some Wit.wTokParam
    ∧ Wit.wTokParam.category = "param" :=
  ⟨by decide,
   c5_parameter_invariance "w.ts" Wit.wscopes Wit.wG Wit.wG ["global:1:10:1"]
     1 10 3 7 Wit.wUParam Wit.wDParam Wit.wTokParam rfl rfl (by decide)⟩

/-- Witness for C4 at a concrete input: the focus range 3–7 selects the
function scope, the block-scope binding is a descendant of it, and the
theorem forces the emitted token's category to `local`. -/
theorem c4_focus_scope_selection_and_classification_witness :
    FocusOverlay.token_for_usage "w.ts" Wit.wscopes Wit.wG
      (FocusOverlay.smallest_containing_function_scope Wit.wscopes Wit.wG 3 7)
      (FocusOverlay.ancestor_chain Wit.wscopes
        (FocusOverlay.smallest_containing_function_scope Wit.wscopes Wit.wG 3 7).id)
      1 10 3 7 Wit.wU = some Wit.wTok
    ∧ Wit.wTok.category = "local" :=
  ⟨by decide,
   (c4_focus_scope_selection_and_classification.2 "w.ts" Wit.wscopes Wit.wG
      (FocusOverlay.smallest_containing_function_scope Wit.wscopes Wit.wG 3 7)
      (FocusOverlay.ancestor_chain Wit.wscopes
        (FocusOverlay.smallest_containing_function_scope Wit.wscopes Wit.wG 3 7).id)
      1 10 3 7 Wit.wU Wit.wD Wit.wB Wit.wTok rfl rfl rfl (by decide) (by decide)
      (by decide) (by decide) (by decide) (by decide)).1
     (by unfold FocusOverlay.is_descendant_or_self; decide)⟩

/-- C8: for every existing regular file whose name has a non-TypeScript/TSX
suffix, the overlay query returns the empty token list and never raises.
(The two hypotheses mirror the code's two checks; a name whose lowercase
form ends in `.d.ts` necessarily has the suffix `.ts`, so the second
hypothesis is implied by the first and excludes no additional file.) -/
theorem c8_unsupported_file_kind_empty_result
    (resolver : String → Bool × Option String) (fuel : Nat)
    (file_name file_path : String) (tree : TSNode) (ss se fs fe : Int)
    (hsuff : lowerStr (pathSuffix file_name) ∉ FocusOverlay.SUPPORTED_TYPESCRIPT_SUFFIXES)
    (hdts : strEndsWith (lowerStr file_name) ".d.ts" = false) :
    FocusOverlay.compute_focus_overlay_entry resolver fuel true true file_name
      file_path tree ss se fs fe = Except.ok [] := by
  have h1 : FocusOverlay.SUPPORTED_TYPESCRIPT_SUFFIXES.contains
      (lowerStr (pathSuffix file_name)) = false := by
    simpa using hsuff
  unfold FocusOverlay.compute_focus_overlay_entry
    FocusOverlay.is_supported_typescript_file
  simp [h1, hdts]
  intro hmem
  exact absurd hmem hsuff

/-- Witness for C8 at a concrete input: a `.py` file name yields the empty
token list. -/
theorem c8_unsupported_file_kind_empty_result_witness :
    lowerStr (pathSuffix "script.py") ∉ FocusOverlay.SUPPORTED_TYPESCRIPT_SUFFIXES
    ∧ FocusOverlay.compute_focus_overlay_entry Trees.nullResolver 64 true true
        "script.py" "/repo/script.py" Trees.constTrue 1 1 1 1 = Except.ok [] :=
  ⟨by decide,
   c8_unsupported_file_kind_empty_result Trees.nullResolver 64 "script.py"
     "/repo/script.py" Trees.constTrue 1 1 1 1 (by decide) (by decide)⟩

/-- Helper for C9: the clamped ranges satisfy 1 ≤ start ≤ end ≤ last line,
for both the slice range and the focus range. -/
theorem clamp_ranges_bounds (ss se fs fe : Int) (L : Nat) (hL : 1 ≤ L) :
    1 ≤ (FocusOverlay.clamp_ranges ss se fs fe L).1
    ∧ (FocusOverlay.clamp_ranges ss se fs fe L).1
        ≤ (FocusOverlay.clamp_ranges ss se fs fe L).2.1
    ∧ (FocusOverlay.clamp_ranges ss se fs fe L).2.1 ≤ (L : Int)
    ∧ 1 ≤ (FocusOverlay.clamp_ranges ss se fs fe L).2.2.1
    ∧ (FocusOverlay.clamp_ranges ss se fs fe L).2.2.1
        ≤ (FocusOverlay.clamp_ranges ss se fs fe L).2.2.2
    ∧ (FocusOverlay.clamp_ranges ss se fs fe L).2.2.2 ≤ (L : Int) := by
  simp only [FocusOverlay.clamp_ranges]
  omega

/-- Helper for C9: clamping is idempotent. -/
theorem clamp_ranges_idem (ss se fs fe : Int) (L : Nat) (hL : 1 ≤ L) :
    FocusOverlay.clamp_ranges
      (FocusOverlay.clamp_ranges ss se fs fe L).1
      (FocusOverlay.clamp_ranges ss se fs fe L).2.1
      (FocusOverlay.clamp_ranges ss se fs fe L).2.2.1
      (FocusOverlay.clamp_ranges ss se fs fe L).2.2.2 L
    = FocusOverlay.clamp_ranges ss se fs fe L := by
  simp only [FocusOverlay.clamp_ranges, Prod.mk.injEq]
  refine ⟨?_, ?_, ?_, ?_⟩ <;> omega

/-- C9: `compute_focus_overlay` normalizes the slice and focus ranges before
any filtering — each start is raised to at least 1, each end to at least its
start, and all four bounds are capped at the file's last line — and the
token list computed for arbitrary (inverted or out-of-range) ranges equals
the one computed for the normalized ranges. -/
theorem c9_range_normalization (resolver : String → Bool × Option String)
    (fuel : Nat) (file_path : String) (tree : TSNode) (ss se fs fe : Int) :
    (1 ≤ (FocusOverlay.clamp_ranges ss se fs fe (tree.endPos.row + 1)).1
     ∧ (FocusOverlay.clamp_ranges ss se fs fe (tree.endPos.row + 1)).1
         ≤ (FocusOverlay.clamp_ranges ss se fs fe (tree.endPos.row + 1)).2.1
     ∧ (FocusOverlay.clamp_ranges ss se fs fe (tree.endPos.row + 1)).2.1
         ≤ ((tree.endPos.row + 1 : Nat) : Int)
     ∧ 1 ≤ (FocusOverlay.clamp_ranges ss se fs fe (tree.endPos.row + 1)).2.2.1
     ∧ (FocusOverlay.clamp_ranges ss se fs fe (tree.endPos.row + 1)).2.2.1
         ≤ (FocusOverlay.clamp_ranges ss se fs fe (tree.endPos.row + 1)).2.2.2
     ∧ (FocusOverlay.clamp_ranges ss se fs fe (tree.endPos.row + 1)).2.2.2
         ≤ ((tree.endPos.row + 1 : Nat) : Int))
    ∧ FocusOverlay.compute_focus_overlay resolver fuel file_path tree ss se fs fe
        = FocusOverlay.compute_focus_overlay resolver fuel file_path tree
            (FocusOverlay.clamp_ranges ss se fs fe (tree.endPos.row + 1)).1
            (FocusOverlay.clamp_ranges ss se fs fe (tree.endPos.row + 1)).2.1
            (FocusOverlay.clamp_ranges ss se fs fe (tree.endPos.row + 1)).2.2.1
            (FocusOverlay.clamp_ranges ss se fs fe (tree.endPos.row + 1)).2.2.2 := by
  constructor
  · exact clamp_ranges_bounds ss se fs fe (tree.endPos.row + 1) (by omega)
  · have hid := clamp_ranges_idem ss se fs fe (tree.endPos.row + 1) (by omega)
    simp only [FocusOverlay.compute_focus_overlay]
    rw [hid]

/-- C6 (code bug): for `const {a, b: renamed} = obj;` the Token Overlay
registrar behaves as claimed — the global symbol table holds exactly `a` and
`renamed` (never `b`), the only recorded usage (and hence the only token on
the declaration line, at column 24) is `obj` — but the Scope Graph registrar
(`DataFlowAnalyzer._handle_definitions`) silently skips destructuring
patterns: it registers no binding at all for `a` or `renamed`, and instead
emits a spurious usage node for `renamed`.  This contradicts the spec's
Binding Registrar contract and the repository's own test
`test_data_flow_destructuring.py`. -/
theorem c6_destructuring_bindings :
    ((FocusOverlay.run_phases Trees.nullResolver 64 Trees.destructuring).2.1.vars.map
        Prod.fst = ["a", "renamed"])
    ∧ ((FocusOverlay.run_phases Trees.nullResolver 64 Trees.destructuring).2.2.map
        (fun u => u.name) = ["obj"])
    ∧ ((FocusOverlay.compute_focus_overlay Trees.nullResolver 64 "t.ts"
          Trees.destructuring 1 1 1 1).map (fun t => t.startCol) = [24])
    ∧ (DataFlow.analyze Trees.supplyU 64 Trees.destructuring).definitions = []
    ∧ ((DataFlow.analyze Trees.supplyU 64 Trees.destructuring).usages.map
        (fun u => u.name) = ["renamed", "obj"]) := by
  refine ⟨rfl, rfl, rfl, rfl, rfl⟩

/-- C7 (code bug): the Token Overlay analyzer never opens a Block scope for
a block that is the body of a function or catch clause (first conjunct, for
every such node pair), but the Scope Graph analyzer treats every
`statement_block` as a scope boundary: for `function myFunc(p) { ... }` its
graph nests a `block` cluster directly inside the `function` cluster.  This
contradicts the spec (which requires the function scope to be the only scope
for that region in both consumers) and the repository's own test
`test_data_flow.py::test_function_scope`. -/
theorem c7_function_body_block_scope :
    (∀ (p n : TSNode),
        (FocusOverlay.is_function_node p || FocusOverlay.is_catch_clause p) = true →
        (n.ntype == "block" || n.ntype == "statement_block") = true →
        FocusOverlay.is_scope_boundary (some p) n = false)
    ∧ DataFlow.is_scope_boundary Trees.funcBody = true
    ∧ DataFlow.GNode.anyNodeFuel
        (fun g => g.ntype == "function"
          && g.children.any (fun c => c.ntype == "block"))
        64 (DataFlow.analyze_file Trees.supplyU 64 Trees.funcWithBody).1 = true := by
  refine ⟨?_, rfl, rfl⟩
  intro p n h1 h2
  simp only [FocusOverlay.is_scope_boundary, h2, h1, if_true]

/-- Witness for C7's first conjunct at the concrete function body: the
overlay opens no block scope for `myFunc`'s `statement_block` body. -/
theorem c7_function_body_block_scope_witness :
    FocusOverlay.is_scope_boundary (some Trees.funcDecl) Trees.funcBody = false :=
  c7_function_body_block_scope.1 Trees.funcDecl Trees.funcBody (by decide) (by decide)

namespace FocusOverlay

/-- Helper for C1: every token the token-building step emits carries a
symbol id of one of the deterministic derivation shapes. -/
theorem token_for_usage_symbol_id (file_path : String) (scopes : List Scope)
    (g F : Scope) (chain : List String) (ss se fs fe : Int) (u : Usage)
    (t : OverlayToken)
    (hf : token_for_usage file_path scopes g F chain ss se fs fe u = some t) :
    symbol_id_derivation file_path u t := by
  unfold token_for_usage at hf
  split at hf
  · exact Option.noConfusion hf
  split at hf
  · exact Option.noConfusion hf
  split at hf
  · exact Option.noConfusion hf
  unfold symbol_id_derivation
  cases hres : u.resolved with
  | none =>
    simp only [hres] at hf
    split at hf
    · injection hf with h
      rw [← h]
      exact Or.inl rfl
    · injection hf with h
      rw [← h]
      exact Or.inr rfl
  | some d =>
    simp only [hres] at hf
    cases hki : (d.kind == "import") with
    | true =>
      have hkind : d.kind = "import" := by simpa using hki
      simp only [hki, if_true] at hf
      split at hf
      · injection hf with h
        rw [← h]
        exact Or.inl ⟨hkind, rfl⟩
      · injection hf with h
        rw [← h]
        exact Or.inl ⟨hkind, rfl⟩
    | false =>
      have hkind : d.kind ≠ "import" := by simpa using hki
      simp only [hki, Bool.false_eq_true, if_false] at hf
      split at hf
      · injection hf with h
        rw [← h]
        exact Or.inr ⟨hkind, rfl⟩
      · split at hf
        · injection hf with h
          rw [← h]
          exact Or.inr ⟨hkind, rfl⟩
        · split at hf
          · injection hf with h
            rw [← h]
            exact Or.inr ⟨hkind, rfl⟩
          · split at hf
            · injection hf with h
              rw [← h]
              exact Or.inr ⟨hkind, rfl⟩
            · split at hf
              · injection hf with h
                rw [← h]
                exact Or.inr ⟨hkind, rfl⟩
              · injection hf with h
                rw [← h]
                exact Or.inr ⟨hkind, rfl⟩

end FocusOverlay

/-- C1 (counterexample): the Scope Graph's node ids are freshly drawn
`uuid.uuid4()` values — two runs of `DataFlowAnalyzer.analyze_file` on the
same file whose uuid streams differ produce different root-cluster ids, so
the graph's node and edge ids are not byte-identical across runs. -/
theorem c1_scope_graph_ids_not_stable_counterexample :
    (DataFlow.analyze_file Trees.supplyU 64 Trees.constTrue).1.id
      ≠ (DataFlow.analyze_file Trees.supplyV 64 Trees.constTrue).1.id := by
  decide

/-- C1 (amended): the Token Overlay's symbol identifiers are deterministic —
every emitted token's symbol id is derived from the bare name (builtins and
unresolved names), from (file identity, import source, name) for imports,
or from (file identity, declaration line, declaration column, name) for all
other bindings; no random value or counter enters a symbol id.  (The Scope
Graph's node/edge ids, by contrast, come from per-run uuid draws — see the
counterexample.) -/
theorem c1_overlay_symbol_ids_deterministic (file_path : String)
    (scopes : List FocusOverlay.Scope) (g : FocusOverlay.Scope)
    (usages : List FocusOverlay.Usage) (ss se fs fe : Int)
    (t : FocusOverlay.OverlayToken)
    (ht : t ∈ FocusOverlay.build_tokens file_path scopes g usages ss se fs fe) :
    ∃ u ∈ usages, FocusOverlay.symbol_id_derivation file_path u t := by
  rcases List.mem_filterMap.mp ht with ⟨u, hu, hf⟩
  exact ⟨u, hu, FocusOverlay.token_for_usage_symbol_id _ _ _ _ _ _ _ _ _ _ _ hf⟩

/-- Witness for C1's amended theorem at a concrete input: the single token
of the `const flag = true;` run carries an `unresolved:`-derived symbol id. -/
theorem c1_overlay_symbol_ids_deterministic_witness :
    ({ fileLine := 1, startCol := 13, endCol := 17, category := "unresolved",
       symbolId := "unresolved:true", tooltip := "Unresolved identifier" }
        : FocusOverlay.OverlayToken)
      ∈ FocusOverlay.build_tokens "t.ts"
          (FocusOverlay.run_phases Trees.nullResolver 64 Trees.constTrue).1
          (FocusOverlay.run_phases Trees.nullResolver 64 Trees.constTrue).2.1
          (FocusOverlay.run_phases Trees.nullResolver 64 Trees.constTrue).2.2
          1 1 1 1
    ∧ ∃ u ∈ (FocusOverlay.run_phases Trees.nullResolver 64 Trees.constTrue).2.2,
        FocusOverlay.symbol_id_derivation "t.ts" u
          { fileLine := 1, startCol := 13, endCol := 17, category := "unresolved",
            symbolId := "unresolved:true", tooltip := "Unresolved identifier" } :=
  ⟨by decide,
   c1_overlay_symbol_ids_deterministic "t.ts"
     (FocusOverlay.run_phases Trees.nullResolver 64 Trees.constTrue).1
     (FocusOverlay.run_phases Trees.nullResolver 64 Trees.constTrue).2.1
     (FocusOverlay.run_phases Trees.nullResolver 64 Trees.constTrue).2.2
     1 1 1 1 _ (by decide)⟩

/-- C10 (counterexample): for `var x = 1; x; var x = 2;` the single
definition → usage edge of the Scope Graph has source `u1` (the first `x`
definition, resolved before the re-declaration), but no node with id `u1`
exists anywhere in the graph: the newest-wins replacement dropped the first
definition from the scope's symbol table before rendering. -/
theorem c10_edge_source_not_in_graph_counterexample :
    ((DataFlow.analyze_file Trees.supplyU 64 Trees.redeclared).2.map
        (fun e => e.source) = ["u1"])
    ∧ DataFlow.GNode.anyNodeFuel (fun g => g.id == "u1") 64
        (DataFlow.analyze_file Trees.supplyU 64 Trees.redeclared).1 = false :=
  ⟨rfl, rfl⟩

namespace DataFlow

/-- Membership in a fold that appends per-element edge lists. -/
theorem foldl_append_mem {α β : Type} (f : α → List β) :
    ∀ (l : List α) (init : List β) (e : β),
      e ∈ l.foldl (fun acc x => acc ++ f x) init → e ∈ init ∨ ∃ x ∈ l, e ∈ f x := by
  intro l
  induction l with
  | nil => intro init e he; exact Or.inl he
  | cons x xs ih =>
    intro init e he
    rcases ih (init ++ f x) e he with h | ⟨y, hy, hey⟩
    · rcases List.mem_append.mp h with h | h
      · exact Or.inl h
      · exact Or.inr ⟨x, List.mem_cons_self _ _, h⟩
    · exact Or.inr ⟨y, List.mem_cons_of_mem _ hy, hey⟩

/-- Nodes already in the accumulator survive the child-cluster fold of
`build_scope_node`. -/
theorem foldl_pair_append_init_nodes {α : Type} (fN : α → GNode) (fE : α → List GEdge) :
    ∀ (l : List α) (init : List GNode × List GEdge), ∀ gn ∈ init.1,
      gn ∈ (l.foldl (fun acc c => (acc.1 ++ [fN c], acc.2 ++ fE c)) init).1 := by
  intro l
  induction l with
  | nil => intro init gn h; exact h
  | cons x xs ih =>
    intro init gn h
    exact ih (init.1 ++ [fN x], init.2 ++ fE x) gn (List.mem_append.mpr (Or.inl h))

/-- Membership facts for the child-cluster fold of `build_scope_node`. -/
theorem foldl_pair_append_spec {α : Type} (fN : α → GNode) (fE : α → List GEdge) :
    ∀ (l : List α) (init : List GNode × List GEdge),
      (∀ e ∈ (l.foldl (fun acc c => (acc.1 ++ [fN c], acc.2 ++ fE c)) init).2,
          e ∈ init.2 ∨ ∃ c ∈ l, e ∈ fE c)
      ∧ (∀ c ∈ l,
          fN c ∈ (l.foldl (fun acc c => (acc.1 ++ [fN c], acc.2 ++ fE c)) init).1) := by
  intro l
  induction l with
  | nil =>
    intro init
    exact ⟨fun e he => Or.inl he, fun c hc => absurd hc (List.not_mem_nil _)⟩
  | cons x xs ih =>
    intro init
    constructor
    · intro e he
      rcases (ih (init.1 ++ [fN x], init.2 ++ fE x)).1 e he with h | ⟨c, hc, hec⟩
      · rcases List.mem_append.mp h with h | h
        · exact Or.inl h
        · exact Or.inr ⟨x, List.mem_cons_self _ _, h⟩
      · exact Or.inr ⟨c, List.mem_cons_of_mem _ hc, hec⟩
    · intro c hc
      rcases List.mem_cons.mp hc with h | h
      · -- fN x lands in the accumulator's node list and stays there
        rw [h]
        exact foldl_pair_append_init_nodes fN fE xs
          (init.1 ++ [fN x], init.2 ++ fE x) (fN x)
          (List.mem_append.mpr (Or.inr (List.mem_singleton.mpr rfl)))
      · exact (ih (init.1 ++ [fN x], init.2 ++ fE x)).2 c h

/-- Every synthetic edge for an adjacent child pair links exactly that pair
and carries the control-flow type. -/
theorem control_flow_pair_edges_spec (scope_type : String) (curr next : GNode)
    (e : GEdge) (he : e ∈ control_flow_pair_edges scope_type curr next) :
    e.etype = some "control-flow" ∧ e.source = curr.id ∧ e.target = next.id := by
  simp only [control_flow_pair_edges, List.mem_append] at he
  rcases he with ((h | h) | h) | h <;>
    (split at h
     · rw [List.mem_singleton.mp h]
       exact ⟨rfl, rfl, rfl⟩
     · exact absurd h (List.not_mem_nil _))

/-- Helper for C10: every edge emitted by `build_scope_node` is either a
definition → usage edge whose target is a usage node present in the built
cluster tree (and whose source is the id the usage was resolved to), or a
synthetic control-flow edge between two nodes present in the tree. -/
theorem build_scope_node_edges_sound (usages : List VariableUsage)
    (definitions : List (String × VariableDef)) :
    ∀ (fuel : Nat) (s : Scope) (e : GEdge),
      e ∈ (build_scope_node usages definitions fuel s).2 →
      (e.etype = none
        ∧ (∃ u ∈ usages, ∃ did, u.def_id = some did ∧ e.source = did
            ∧ e.target = u.id)
        ∧ (∃ gn, GNode.Occurs gn (build_scope_node usages definitions fuel s).1
             ∧ gn.ntype = "usage" ∧ gn.id = e.target))
      ∨ (e.etype = some "control-flow"
        ∧ (∃ gn, GNode.Occurs gn (build_scope_node usages definitions fuel s).1
             ∧ gn.id = e.source)
        ∧ (∃ gn, GNode.Occurs gn (build_scope_node usages definitions fuel s).1
             ∧ gn.id = e.target)) := by
  intro fuel
  induction fuel with
  | zero =>
    intro s e he
    simp [build_scope_node] at he
  | succ fuel ih =>
    intro s e he
    simp only [build_scope_node] at he ⊢
    rcases List.mem_append.mp he with h12 | h
    rcases List.mem_append.mp h12 with h | h
    · -- an edge coming from a child cluster
      rcases (foldl_pair_append_spec
          (fun c => (build_scope_node usages definitions fuel c).1)
          (fun c => (build_scope_node usages definitions fuel c).2)
          s.children ([], [])).1 e h with h0 | ⟨c, hc, hec⟩
      · exact absurd h0 (List.not_mem_nil _)
      · have hnc : (build_scope_node usages definitions fuel c).1 ∈
            (s.children.foldl
              (fun acc c => (acc.1 ++ [(build_scope_node usages definitions fuel c).1],
                acc.2 ++ (build_scope_node usages definitions fuel c).2))
              ([], [])).1 :=
          (foldl_pair_append_spec
            (fun c => (build_scope_node usages definitions fuel c).1)
            (fun c => (build_scope_node usages definitions fuel c).2)
            s.children ([], [])).2 c hc
        have hmem : (build_scope_node usages definitions fuel c).1 ∈
            (s.vars.map (fun p =>
              GNode.mk p.2.id "variable" (p.2.name ++ " (" ++ p.2.kind ++ ")")
                p.2.start_line p.2.end_line [])
            ++ (s.children.foldl
                (fun acc c => (acc.1 ++ [(build_scope_node usages definitions fuel c).1],
                  acc.2 ++ (build_scope_node usages definitions fuel c).2))
                ([], [])).1
            ++ (usages.filter (fun u => u.scope_id == s.id)).map (fun u =>
                GNode.mk u.id "usage"
                  (match u.attribute_name with
                   | some a => a ++ ": " ++ u.name
                   | none => u.name)
                  u.start_line u.end_line [])) :=
          List.mem_append.mpr (Or.inl (List.mem_append.mpr (Or.inr hnc)))
        rcases ih c e hec with ⟨het, hsrc, gn, hocc, hty, hid⟩ | ⟨het, ⟨g1, ho1, hi1⟩, g2, ho2, hi2⟩
        · exact Or.inl ⟨het, hsrc, gn, GNode.Occurs.child hmem hocc, hty, hid⟩
        · exact Or.inr ⟨het, ⟨g1, GNode.Occurs.child hmem ho1, hi1⟩,
            g2, GNode.Occurs.child hmem ho2, hi2⟩
    · -- a definition → usage edge of this scope
      rcases List.mem_filterMap.mp h with ⟨u, hu, hmu⟩
      cases hdid : u.def_id with
      | none => rw [hdid] at hmu; exact absurd hmu (by simp)
      | some did =>
        rw [hdid] at hmu
        injection hmu with hE
        refine Or.inl ⟨by rw [← hE], ⟨u, List.mem_of_mem_filter hu, did, hdid,
          by rw [← hE], by rw [← hE]⟩, ?_⟩
        refine ⟨GNode.mk u.id "usage"
          (match u.attribute_name with
           | some a => a ++ ": " ++ u.name
           | none => u.name) u.start_line u.end_line [], ?_, rfl,
          by rw [← hE]; rfl⟩
        refine GNode.Occurs.child ?_ (GNode.Occurs.refl _)
        exact List.mem_append.mpr (Or.inr (List.mem_map_of_mem _ hu))
    · -- a synthetic control-flow edge between adjacent children
      rcases foldl_append_mem _ _ _ e h with h0 | ⟨pr, hpr, hepr⟩
      · exact absurd h0 (List.not_mem_nil _)
      · obtain ⟨a, b⟩ := pr
        rcases control_flow_pair_edges_spec _ _ _ _ hepr with ⟨het, hsrc, htgt⟩
        have hab := List.of_mem_zip hpr
        refine Or.inr ⟨het,
          ⟨a, GNode.Occurs.child hab.1 (GNode.Occurs.refl _), hsrc.symm ▸ rfl⟩,
          ⟨b, GNode.Occurs.child (List.mem_of_mem_tail hab.2) (GNode.Occurs.refl _),
            htgt.symm ▸ rfl⟩⟩

theorem lookupAssoc_setAssoc_self {α : Type} (k : String) (v : α) :
    ∀ (m : List (String × α)), lookupAssoc (setAssoc m k v) k = some v := by
  intro m
  induction m with
  | nil => simp [setAssoc, lookupAssoc, List.find?]
  | cons q rest ih =>
    obtain ⟨k1, v1⟩ := q
    by_cases h1 : k1 = k
    · subst h1
      simp [setAssoc, lookupAssoc, List.find?]
    · have hb : (k1 == k) = false := by simp [h1]
      simp only [setAssoc, hb, Bool.false_eq_true, if_false]
      simpa [lookupAssoc, List.find?, hb] using ih

theorem lookup_isSome_setAssoc {α : Type} (k : String) (v : α) :
    ∀ {m : List (String × α)} {k' : String},
      (lookupAssoc m k').isSome = true →
      (lookupAssoc (setAssoc m k v) k').isSome = true := by
  intro m
  induction m with
  | nil =>
    intro k' h
    simp [lookupAssoc] at h
  | cons q rest ih =>
    intro k' h
    obtain ⟨k1, v1⟩ := q
    by_cases h1 : k1 = k
    · subst h1
      by_cases h2 : k1 = k'
      · subst h2
        simp [setAssoc, lookupAssoc, List.find?]
      · have hb : (k1 == k') = false := by simp [h2]
        simp only [lookupAssoc, List.find?, hb] at h
        simp only [setAssoc, beq_self_eq_true, if_true]
        simpa [lookupAssoc, List.find?, hb] using h
    · have hb1 : (k1 == k) = false := by simp [h1]
      by_cases h2 : k1 = k'
      · subst h2
        simp [setAssoc, hb1, lookupAssoc, List.find?]
      · have hb2 : (k1 == k') = false := by simp [h2]
        simp only [lookupAssoc, List.find?, hb2] at h
        simp only [setAssoc, hb1, Bool.false_eq_true, if_false]
        simp only [lookupAssoc, List.find?, hb2]
        exact ih h

theorem mem_setAssoc {α : Type} {pr : String × α} {k : String} {v : α} :
    ∀ {m : List (String × α)}, pr ∈ setAssoc m k v → pr ∈ m ∨ pr = (k, v) := by
  intro m
  induction m with
  | nil =>
    intro h
    exact Or.inr (List.mem_singleton.mp h)
  | cons q rest ih =>
    intro h
    obtain ⟨k1, v1⟩ := q
    by_cases h1 : (k1 == k) = true
    · rw [setAssoc, if_pos h1] at h
      rcases List.mem_cons.mp h with h | h
      · exact Or.inr h
      · exact Or.inl (List.mem_cons_of_mem _ h)
    · rw [setAssoc, if_neg h1] at h
      rcases List.mem_cons.mp h with h | h
      · exact Or.inl (h ▸ List.mem_cons_self _ _)
      · rcases ih h with h | h
        · exact Or.inl (List.mem_cons_of_mem _ h)
        · exact Or.inr h

theorem lookupAssoc_mem {α : Type} {m : List (String × α)} {k : String} {v : α}
    (h : lookupAssoc m k = some v) : ∃ pr ∈ m, pr.2 = v := by
  unfold lookupAssoc at h
  cases hf : m.find? (fun p => p.1 == k) with
  | none => rw [hf] at h; exact Option.noConfusion h
  | some p =>
    rw [hf] at h
    injection h with h
    exact ⟨p, List.mem_of_find?_eq_some hf, h⟩

/-- A successful `_resolve_variable` returns the id of a definition stored
in some symbol table on the stack. -/
theorem resolve_variable_some {name : String} {did : String} :
    ∀ {stack : List Scope}, resolve_variable name stack = some did →
      ∃ s ∈ stack, ∃ pr ∈ s.vars, pr.2.id = did := by
  intro stack
  induction stack with
  | nil => intro h; exact Option.noConfusion h
  | cons s rest ih =>
    intro h
    rw [resolve_variable] at h
    cases hl : lookupAssoc s.vars name with
    | some d =>
      rw [hl] at h
      injection h with h
      rcases lookupAssoc_mem hl with ⟨pr, hpr, hpr2⟩
      exact ⟨s, List.mem_cons_self _ _, pr, hpr, by rw [hpr2, h]⟩
    | none =>
      rw [hl] at h
      rcases ih h with ⟨s2, hs2, pr, hpr, hid⟩
      exact ⟨s2, List.mem_cons_of_mem _ hs2, pr, hpr, hid⟩

theorem Scope.vars_setVar (s : Scope) (n : String) (d : VariableDef) :
    (s.setVar n d).vars = setAssoc s.vars n d := by
  cases s; rfl

theorem Scope.vars_addChild (s c : Scope) : (s.addChild c).vars = s.vars := by
  cases s; rfl

theorem foldl_preserves {α : Type} (P : DFState → Prop) (f : DFState → α → DFState)
    (hf : ∀ st x, P st → P (f st x)) :
    ∀ (l : List α) (st : DFState), P st → P (l.foldl f st) := by
  intro l
  induction l with
  | nil => exact fun st h => h
  | cons x xs ih => intro st h; exact ih _ (hf st x h)

/-- `_add_definition` preserves the definitions-map invariant (the fresh
definition is recorded in both the scope's symbol table and the map). -/
theorem add_definition_preserves (supply : Nat → String) (node : TSNode)
    (kind : String) (off : Int) {st : DFState} (h : DefsInv st) :
    DefsInv (add_definition supply node kind off st) := by
  simp only [add_definition]
  split
  · exact h
  · split
    · exact h
    · rename_i hne scope hget
      constructor
      · intro s2 hs2 pr hpr
        rcases List.mem_or_eq_of_mem_set hs2 with hmem | heq
        · exact lookup_isSome_setAssoc _ _ (h.1 s2 hmem pr hpr)
        · rw [heq, Scope.vars_setVar] at hpr
          rcases mem_setAssoc hpr with hpr | hpr
          · exact lookup_isSome_setAssoc _ _
              (h.1 scope (List.get?_mem hget) pr hpr)
          · rw [hpr]
            rw [lookupAssoc_setAssoc_self]
            rfl
      · intro u hu did hdid
        exact lookup_isSome_setAssoc _ _ (h.2 u hu did hdid)

/-- `_add_usage` preserves the invariant: a resolved `def_id` comes from a
stack symbol table and is therefore in the definitions map. -/
theorem add_usage_preserves (supply : Nat → String) (n : TSNode)
    (ancestors : List TSNode) {st : DFState} (h : DefsInv st) :
    DefsInv (add_usage supply n ancestors st) := by
  simp only [add_usage]
  split
  · exact h
  · split
    · exact h
    · rename_i current rest
      constructor
      · exact h.1
      · intro u hu did hdid
        rcases List.mem_append.mp hu with hu | hu
        · exact h.2 u hu did hdid
        · rw [List.mem_singleton.mp hu] at hdid
          rcases resolve_variable_some hdid with ⟨s2, hs2, pr, hpr, hid⟩
          rw [← hid]
          exact h.1 s2 hs2 pr hpr

theorem handle_usages_preserves (supply : Nat → String) (n : TSNode)
    (ancestors : List TSNode) {st : DFState} (h : DefsInv st) :
    DefsInv (handle_usages supply n ancestors st) := by
  simp only [handle_usages]
  split
  · split
    · exact h
    · split
      · exact h
      · split
        · exact h
        · split
          · exact h
          · split
            · exact h
            · split
              · exact h
              · exact add_usage_preserves supply n _ h
  · exact h

theorem pop_scope_preserves {st : DFState} (h : DefsInv st) :
    DefsInv (pop_scope st) := by
  simp only [pop_scope]
  split
  · rename_i s parent rest hstack
    constructor
    · intro s2 hs2 pr hpr
      rcases List.mem_cons.mp hs2 with heq | hmem
      · rw [heq, Scope.vars_addChild] at hpr
        refine h.1 parent ?_ pr hpr
        rw [hstack]
        exact List.mem_cons_of_mem _ (List.mem_cons_self _ _)
      · refine h.1 s2 ?_ pr hpr
        rw [hstack]
        exact List.mem_cons_of_mem _ (List.mem_cons_of_mem _ hmem)
    · exact h.2
  · exact h

theorem handle_definitions_preserves (supply : Nat → String) (n : TSNode)
    {st : DFState} (h : DefsInv st) :
    DefsInv (handle_definitions supply n st) := by
  simp only [handle_definitions]
  have h1 : DefsInv (if n.ntype == "variable_declarator" then
      match n.childByField "name" with
      | some name_node =>
        if name_node.ntype == "identifier" then
          add_definition supply name_node "variable" 0 st
        else st
      | none => st
    else st) := by
    split
    · split
      · split
        · exact add_definition_preserves _ _ _ _ h
        · exact h
      · exact h
    · exact h
  generalize hg1 : (if n.ntype == "variable_declarator" then
      match n.childByField "name" with
      | some name_node =>
        if name_node.ntype == "identifier" then
          add_definition supply name_node "variable" 0 st
        else st
      | none => st
    else st) = s1 at h1 ⊢
  have h2 : DefsInv (if n.ntype == "required_parameter" || n.ntype == "optional_parameter" then
      n.children.foldl
        (fun st child =>
          if child.ntype == "identifier" then add_definition supply child "param" 0 st
          else st) s1
    else s1) := by
    split
    · refine foldl_preserves DefsInv _ ?_ n.children s1 h1
      intro st2 x h2
      split
      · exact add_definition_preserves _ _ _ _ h2
      · exact h2
    · exact h1
  generalize hg2 : (if n.ntype == "required_parameter" || n.ntype == "optional_parameter" then
      n.children.foldl
        (fun st child =>
          if child.ntype == "identifier" then add_definition supply child "param" 0 st
          else st) s1
    else s1) = s2 at h2 ⊢
  have h3 : DefsInv (if n.ntype == "function_declaration" then
      match n.childByField "name" with
      | some name_node => add_definition supply name_node "function" (-1) s2
      | none => s2
    else s2) := by
    split
    · split
      · exact add_definition_preserves _ _ _ _ h2
      · exact h2
    · exact h2
  generalize hg3 : (if n.ntype == "function_declaration" then
      match n.childByField "name" with
      | some name_node => add_definition supply name_node "function" (-1) s2
      | none => s2
    else s2) = s3 at h3 ⊢
  split
  · split
    · exact add_definition_preserves _ _ _ _ h3
    · exact h3
  · exact h3

theorem push_scope_preserves {st : DFState} (scope : Scope)
    (hvars : scope.vars = []) (L : List Scope) (hL : L = st.stack) (fr : Nat)
    (h : DefsInv st) :
    DefsInv { st with stack := scope :: L, fresh := fr } := by
  constructor
  · intro s2 hs2 pr hpr
    rcases List.mem_cons.mp hs2 with heq | hmem
    · rw [heq, hvars] at hpr
      exact absurd hpr (List.not_mem_nil _)
    · rw [hL] at hmem
      exact h.1 s2 hmem pr hpr
  · exact h.2

/-- The child-traversal stage of `_traverse` (including the inlined
`_traverse_if_statement_children`) preserves the invariant, given that one
fuel level less of `traverse` does. -/
theorem children_stage_preserves (supply : Nat → String) (fuel : Nat)
    (ih : ∀ (n : TSNode) (anc : List TSNode) (st : DFState),
      DefsInv st → DefsInv (traverse supply fuel n anc st))
    (n : TSNode) (anc : List TSNode) {st : DFState} (h : DefsInv st) :
    DefsInv (if n.ntype == "if_statement" then
        n.children.foldl
          (fun st c =>
            match n.childByField "condition" with
            | some sk =>
              if c.sameAs sk then st else traverse supply fuel c (n :: anc) st
            | none => traverse supply fuel c (n :: anc) st)
          (match n.childByField "condition" with
           | some condition_node =>
             match st.stack with
             | top :: _ =>
               pop_scope (traverse supply fuel condition_node (n :: anc)
                 { st with
                   stack := (Scope.mk (supply st.fresh) "if_condition" (some top.id) (condition_node.startPos.row + 1) (condition_node.endPos.row + 1) [] []) :: st.stack,
                   fresh := st.fresh + 1 })
             | [] => st
           | none => st)
      else n.children.foldl (fun st c => traverse supply fuel c (n :: anc) st) st) := by
  split
  · refine foldl_preserves DefsInv _ ?_ n.children _ ?_
    · intro st2 c h2
      split
      · split
        · exact h2
        · exact ih _ _ _ h2
      · exact ih _ _ _ h2
    · split
      · split
        · refine pop_scope_preserves
            (ih _ _ _ (push_scope_preserves _ ?_ _ rfl _ h))
          rfl
        · exact h
      · exact h
  · exact foldl_preserves DefsInv _ (fun st2 c h2 => ih _ _ _ h2) n.children st h

/-- `_traverse` preserves the definitions-map invariant. -/
theorem traverse_preserves (supply : Nat → String) :
    ∀ (fuel : Nat) (n : TSNode) (anc : List TSNode) (st : DFState),
      DefsInv st → DefsInv (traverse supply fuel n anc st) := by
  intro fuel
  induction fuel with
  | zero =>
    intro n anc st h
    simpa [traverse] using h
  | succ fuel ih =>
    intro n anc st h
    by_cases hb : is_scope_boundary n = true
    · cases hstack : st.stack with
      | nil =>
        simp only [traverse, hb, hstack, if_true]
        exact children_stage_preserves supply fuel ih n anc
          (handle_usages_preserves supply n anc
            (handle_definitions_preserves supply n h))
      | cons top rest =>
        simp only [traverse, hb, hstack, if_true]
        refine pop_scope_preserves
          (children_stage_preserves supply fuel ih n anc
            (handle_usages_preserves supply n anc
              (handle_definitions_preserves supply n ?_)))
        refine push_scope_preserves _ ?_ _ hstack.symm _ h
        rfl
    · have hb2 : is_scope_boundary n = false := by simpa using hb
      simp only [traverse, hb2, Bool.false_eq_true, if_false]
      exact children_stage_preserves supply fuel ih n anc
        (handle_usages_preserves supply n anc
          (handle_definitions_preserves supply n h))

/-- The traversal state of a whole-file analysis satisfies the
definitions-map invariant. -/
theorem analyze_defsInv (supply : Nat → String) (fuel : Nat) (tree : TSNode) :
    DefsInv (analyze supply fuel tree) := by
  unfold analyze
  refine traverse_preserves supply fuel tree [] _ ?_
  constructor
  · intro s hs pr hpr
    rw [List.mem_singleton.mp hs] at hpr
    exact absurd hpr (List.not_mem_nil _)
  · intro u hu
    exact absurd hu (List.not_mem_nil _)

end DataFlow

/-- C10 (amended): in every Scope Graph produced by `analyze_file`, every
definition → usage edge has a target that is the id of a usage node actually
present in some scope cluster of the graph, and a source that is the id of a
definition recorded in the analyzer's `definitions` map; every synthetic
control-flow edge links two nodes present in the graph.  (The source of a
definition → usage edge need not itself be present as a binding node: when
the binding's name was later re-declared in the same scope, newest-wins
replacement drops the older binding node while the edge still references it
— see the counterexample.) -/
theorem c10_edge_targets_present_sources_recorded :
    ∀ (supply : Nat → String) (fuel : Nat) (tree : TSNode),
      ∀ e ∈ (DataFlow.analyze_file supply fuel tree).2,
        (e.etype = none →
          (lookupAssoc (DataFlow.analyze supply fuel tree).definitions
              e.source).isSome = true
          ∧ ∃ gn, DataFlow.GNode.Occurs gn (DataFlow.analyze_file supply fuel tree).1
              ∧ gn.ntype = "usage" ∧ gn.id = e.target)
        ∧ (e.etype = some "control-flow" →
          (∃ gn, DataFlow.GNode.Occurs gn (DataFlow.analyze_file supply fuel tree).1
              ∧ gn.id = e.source)
          ∧ (∃ gn, DataFlow.GNode.Occurs gn (DataFlow.analyze_file supply fuel tree).1
              ∧ gn.id = e.target)) := by
  intro supply fuel tree e he
  unfold DataFlow.analyze_file DataFlow.build_graph at he ⊢
  cases hstack : (DataFlow.analyze supply fuel tree).stack with
  | nil =>
    rw [hstack] at he
    simp at he
  | cons root rest =>
    rw [hstack] at he
    rcases DataFlow.build_scope_node_edges_sound
        (DataFlow.analyze supply fuel tree).usages
        (DataFlow.analyze supply fuel tree).definitions fuel root e he with
      ⟨het, ⟨u, hu, did, hdid, hsrc, htgt⟩, gn, hocc, hty, hid⟩ | ⟨het, h1, h2⟩
    · refine ⟨fun _ => ⟨?_, gn, hocc, hty, hid⟩, fun hcf => ?_⟩
      · rw [hsrc]
        exact (DataFlow.analyze_defsInv supply fuel tree).2 u hu did hdid
      · rw [het] at hcf
        exact Option.noConfusion hcf
    · refine ⟨fun hnone => ?_, fun _ => ⟨h1, h2⟩⟩
      rw [het] at hnone
      exact Option.noConfusion hnone

/-- Witness for C10 (amended) at a concrete input: the single
definition → usage edge of `var x = 1; x; var x = 2;` targets a usage node
present in the graph and its source is recorded in the definitions map. -/
theorem c10_edge_targets_present_sources_recorded_witness :
    Wit.wEdge ∈ (DataFlow.analyze_file Trees.supplyU 64 Trees.redeclared).2
    ∧ ((lookupAssoc (DataFlow.analyze Trees.supplyU 64 Trees.redeclared).definitions
          Wit.wEdge.source).isSome = true
       ∧ ∃ gn, DataFlow.GNode.Occurs gn
            (DataFlow.analyze_file Trees.supplyU 64 Trees.redeclared).1
          ∧ gn.ntype = "usage" ∧ gn.id = Wit.wEdge.target) :=
  ⟨by decide,
   (c10_edge_targets_present_sources_recorded Trees.supplyU 64 Trees.redeclared
      Wit.wEdge (by decide)).1 rfl⟩
